import Mathlib

/-!
Verification of the LiDAR acquisition / decoding / spatial-indexing /
rasterization core of the rsmdu repository
(src/rsmdu/src/geometric/lidar.rs), as a shallow embedding in Lean 4.

Modelling conventions:
* `f64` coordinates are modelled as exact rationals `ℚ`.  The properties
  verified here are order/comparison properties that the source computes
  with monotone floating-point operations; `ℚ` keeps them exact.
  There are no NaNs or infinities in `ℚ`; the source's use of
  `f64::INFINITY` / `f64::NEG_INFINITY` as fold seeds and "no data"
  sentinels is modelled with `Option ℚ` (`none` = the sentinel / empty
  fold seed), which matches the source for every non-empty input.
* `usize` / `u8` become `ℕ`, `i64`/`i32` become `ℤ`.  Rust's saturating
  float-to-int cast `x.floor() as usize` on a non-negative value is
  `Int.toNat ⌊x⌋` (negative values saturate to 0 in both).
* `Vec<Vec<f64>>` raster grids become total functions `ℕ → ℕ → Option ℚ`
  built by pointwise functional update; the source only ever reads and
  writes indices `row < height`, `col < width`.
* Mutable accumulation loops become `List.foldl`.
* Network / disk effects are modelled by explicit parameters: the remote
  file is a fixed byte array (`List ℕ`), per-file load outcomes are a
  `List (Except ε (List LidarPoint))`, decoding oracles are function
  parameters.
-/

namespace Rsmdu

/-- Canonical LiDAR point (struct LidarPoint: x, y, z, classification). -/
structure LidarPoint where
  x : ℚ
  y : ℚ
  z : ℚ
  classification : ℕ
  deriving DecidableEq, Repr, Inhabited

/-- Fold of `min (f p)` over a list, seeded with `f64::INFINITY`; `none`
represents the infinite seed, so for every non-empty list this is exactly
the source's `fold(INFINITY, min)`. -/
def listMinQ (f : α → ℚ) (l : List α) : Option ℚ :=
  l.foldl (fun a p => some (match a with | none => f p | some m => min m (f p))) none

/-- Fold of `max (f p)` over a list, seeded with `f64::NEG_INFINITY`
(`none` represents the seed). -/
def listMaxQ (f : α → ℚ) (l : List α) : Option ℚ :=
  l.foldl (fun a p => some (match a with | none => f p | some m => max m (f p))) none

/-- Inclusive integer range `lo..=hi` as a list (empty when `hi < lo`),
modelling Rust's `for v in lo..=hi`. -/
def intRange (lo hi : ℤ) : List ℤ :=
  (List.range (hi + 1 - lo).toNat).map (fun n : ℕ => lo + (n : ℤ))

theorem mem_intRange {lo hi v : ℤ} (h1 : lo ≤ v) (h2 : v ≤ hi) : v ∈ intRange lo hi := by
  have hv : v = lo + ((v - lo).toNat : ℤ) := by omega
  have hm : (v - lo).toNat ∈ List.range (hi + 1 - lo).toNat :=
    List.mem_range.mpr (by omega)
  rw [hv, intRange]
  exact List.mem_map_of_mem _ hm

-- ============================================================================
-- SPATIAL GRID INDEX  (struct SpatialGridIndex)
-- ============================================================================

/-- Cell key for spatial grid indexing (struct GridCellKey). -/
structure GridCellKey where
  col : ℤ
  row : ℤ
  deriving DecidableEq, Repr

/-- SpatialGridIndex::cell_key for given cell size and origin:
`col = ((x - origin_x) / cell_size).floor() as i64` and likewise for `row`. -/
def cellKeyOf (cellSize originX originY x y : ℚ) : GridCellKey :=
  ⟨⌊(x - originX) / cellSize⌋, ⌊(y - originY) / cellSize⌋⟩

/-- Spatial grid index (struct SpatialGridIndex); the `HashMap` of cells is
modelled as a total function from keys to the bucket contents. -/
structure SpatialGridIndex where
  cellSize : ℚ
  originX : ℚ
  originY : ℚ
  cells : GridCellKey → List ℕ
  pointCount : ℕ

/-- The second pass of SpatialGridIndex::build_from_points: insert each
`(index, point)` pair into its cell bucket (entry().or_default().push(i)). -/
def buildCells (ck : LidarPoint → GridCellKey) (pairs : List (ℕ × LidarPoint)) :
    GridCellKey → List ℕ :=
  pairs.foldl
    (fun cells ip => fun k => if k = ck ip.2 then cells k ++ [ip.1] else cells k)
    (fun _ => [])

/-- SpatialGridIndex::build_from_points: first pass computes the data bounds
(min_x, min_y used as origin), second pass buckets every point by its cell
key.  The infinite fold seeds are `none`; for an empty point list the source
origin would be `INFINITY`, modelled by the default 0 (no point is indexed
in that case, so all bucket contents agree). -/
def SpatialGridIndex.build_from_points (points : List LidarPoint) (cellSize : ℚ) :
    SpatialGridIndex :=
  let ox := (listMinQ (fun p => p.x) points).getD 0
  let oy := (listMinQ (fun p => p.y) points).getD 0
  { cellSize := cellSize
    originX := ox
    originY := oy
    cells := buildCells (fun p => cellKeyOf cellSize ox oy p.x p.y) points.enum
    pointCount := points.length }

/-- SpatialGridIndex::query_bbox: enumerate all cells whose key range covers
the query rectangle and concatenate their buckets (outer loop over columns,
inner over rows, `result.extend`). -/
def SpatialGridIndex.query_bbox (idx : SpatialGridIndex) (minX minY maxX maxY : ℚ) :
    List ℕ :=
  let minCol := ⌊(minX - idx.originX) / idx.cellSize⌋
  let maxCol := ⌊(maxX - idx.originX) / idx.cellSize⌋
  let minRow := ⌊(minY - idx.originY) / idx.cellSize⌋
  let maxRow := ⌊(maxY - idx.originY) / idx.cellSize⌋
  (intRange minCol maxCol).flatMap fun col =>
    (intRange minRow maxRow).flatMap fun row =>
      idx.cells ⟨col, row⟩

theorem buildCells_mono (ck : LidarPoint → GridCellKey)
    (pairs : List (ℕ × LidarPoint)) (init : GridCellKey → List ℕ) (k : GridCellKey)
    (j : ℕ) (hj : j ∈ init k) :
    j ∈ pairs.foldl
      (fun cells ip => fun k => if k = ck ip.2 then cells k ++ [ip.1] else cells k)
      init k := by
  induction pairs generalizing init with
  | nil => exact hj
  | cons hd tl ih =>
    apply ih
    by_cases h : k = ck hd.2
    · subst h
      simp [hj]
    · simp [h, hj]

theorem mem_buildCells_fold (ck : LidarPoint → GridCellKey)
    (pairs : List (ℕ × LidarPoint)) (init : GridCellKey → List ℕ)
    (i : ℕ) (p : LidarPoint) (hip : (i, p) ∈ pairs) :
    i ∈ pairs.foldl
      (fun cells ip => fun k => if k = ck ip.2 then cells k ++ [ip.1] else cells k)
      init (ck p) := by
  induction pairs generalizing init with
  | nil => cases hip
  | cons hd tl ih =>
    rcases List.mem_cons.mp hip with hip | hip
    · subst hip
      simp only [List.foldl_cons]
      apply buildCells_mono
      simp
    · simp only [List.foldl_cons]
      exact ih _ hip

theorem mem_buildCells_of_mem (ck : LidarPoint → GridCellKey)
    (pairs : List (ℕ × LidarPoint)) (i : ℕ) (p : LidarPoint)
    (hip : (i, p) ∈ pairs) :
    i ∈ buildCells ck pairs (ck p) :=
  mem_buildCells_fold ck pairs _ i p hip

theorem buildCells_sound (ck : LidarPoint → GridCellKey)
    (pairs : List (ℕ × LidarPoint)) (init : GridCellKey → List ℕ) (k : GridCellKey)
    (j : ℕ)
    (hj : j ∈ pairs.foldl
      (fun cells ip => fun k => if k = ck ip.2 then cells k ++ [ip.1] else cells k)
      init k) :
    j ∈ init k ∨ ∃ p, (j, p) ∈ pairs ∧ ck p = k := by
  induction pairs generalizing init with
  | nil => exact Or.inl hj
  | cons hd tl ih =>
    simp only [List.foldl_cons] at hj
    rcases ih _ hj with h | ⟨p, hp, hpk⟩
    · by_cases hk : k = ck hd.2
      · rw [if_pos hk] at h
        rcases List.mem_append.mp h with h | h
        · exact Or.inl h
        · have hj1 : j = hd.1 := List.mem_singleton.mp h
          exact Or.inr ⟨hd.2, by simp [hj1], hk.symm⟩
      · rw [if_neg hk] at h
        exact Or.inl h
    · exact Or.inr ⟨p, List.mem_cons_of_mem _ hp, hpk⟩

/-- If a point sits in some cell bucket, the grid query over any rectangle
containing that point visits the point's cell: no false negatives. -/
theorem SpatialGridIndex.query_bbox_complete (idx : SpatialGridIndex)
    (hcs : 0 < idx.cellSize) (i : ℕ) (x y : ℚ)
    (hcell : i ∈ idx.cells (cellKeyOf idx.cellSize idx.originX idx.originY x y))
    (minX minY maxX maxY : ℚ)
    (hx1 : minX ≤ x) (hx2 : x ≤ maxX) (hy1 : minY ≤ y) (hy2 : y ≤ maxY) :
    i ∈ idx.query_bbox minX minY maxX maxY := by
  unfold SpatialGridIndex.query_bbox
  refine List.mem_flatMap.mpr ⟨⌊(x - idx.originX) / idx.cellSize⌋, ?_, ?_⟩
  · exact mem_intRange
      (Int.floor_le_floor (by gcongr))
      (Int.floor_le_floor (by gcongr))
  · refine List.mem_flatMap.mpr ⟨⌊(y - idx.originY) / idx.cellSize⌋, ?_, ?_⟩
    · exact mem_intRange
        (Int.floor_le_floor (by gcongr))
        (Int.floor_le_floor (by gcongr))
    · exact hcell

/-- SpatialGridIndex completeness: every indexed point inside the query
rectangle appears among the raw candidates of query_bbox. -/
theorem grid_build_query_complete (points : List LidarPoint) (cs : ℚ) (hcs : 0 < cs)
    (i : ℕ) (p : LidarPoint) (hip : points[i]? = some p)
    (minX minY maxX maxY : ℚ)
    (hx1 : minX ≤ p.x) (hx2 : p.x ≤ maxX) (hy1 : minY ≤ p.y) (hy2 : p.y ≤ maxY) :
    i ∈ (SpatialGridIndex.build_from_points points cs).query_bbox minX minY maxX maxY := by
  apply SpatialGridIndex.query_bbox_complete _ hcs _ p.x p.y _ minX minY maxX maxY
    hx1 hx2 hy1 hy2
  exact mem_buildCells_of_mem
    (fun q => cellKeyOf cs ((listMinQ (fun r => r.x) points).getD 0)
      ((listMinQ (fun r => r.y) points).getD 0) q.x q.y)
    points.enum i p (List.mk_mem_enum_iff_getElem?.mpr hip)

-- ============================================================================
-- QUADTREE SPATIAL INDEX  (struct OctreeNode / QuadtreeSpatialIndex)
-- ============================================================================

/-- Node bounds tuple (min_x, min_y, min_z, max_x, max_y, max_z). -/
structure Bounds3 where
  minX : ℚ
  minY : ℚ
  minZ : ℚ
  maxX : ℚ
  maxY : ℚ
  maxZ : ℚ
  deriving DecidableEq, Repr

/-- Quadtree node (struct OctreeNode).  The source stores
`children : Option<Box<[Option<OctreeNode>; 4]>>` with child slots created
lazily at first insertion; here an absent child slot is modelled as an
empty leaf carrying the slot's child bounds and depth + 1, created when
the node splits.  Inserting into or querying an absent slot behaves
exactly like inserting into or querying such an empty leaf, so both
representations store the same indices and answer queries identically. -/
inductive QNode where
  | leaf (bounds : Bounds3) (points : List ℕ) (depth : ℕ)
  | node (bounds : Bounds3) (points : List ℕ) (depth : ℕ) (c0 c1 c2 c3 : QNode)
  deriving DecidableEq, Repr

def QNode.bounds : QNode → Bounds3
  | .leaf b _ _ => b
  | .node b _ _ _ _ _ _ => b

def QNode.depth : QNode → ℕ
  | .leaf _ _ d => d
  | .node _ _ d _ _ _ _ => d

/-- OctreeNode::MAX_POINTS_PER_NODE. -/
def maxPointsPerNode : ℕ := 1000

/-- OctreeNode::MAX_DEPTH. -/
def maxDepth : ℕ := 12

/-- OctreeNode::contains_xy. -/
def containsXY (b : Bounds3) (x y : ℚ) : Prop :=
  b.minX ≤ x ∧ x ≤ b.maxX ∧ b.minY ≤ y ∧ y ≤ b.maxY

instance (b : Bounds3) (x y : ℚ) : Decidable (containsXY b x y) := by
  unfold containsXY
  infer_instance

/-- OctreeNode::intersects_bbox. -/
def intersectsBbox (b : Bounds3) (minX minY maxX maxY : ℚ) : Prop :=
  ¬(b.maxX < minX ∨ b.minX > maxX ∨ b.maxY < minY ∨ b.minY > maxY)

instance (b : Bounds3) (minX minY maxX maxY : ℚ) :
    Decidable (intersectsBbox b minX minY maxX maxY) := by
  unfold intersectsBbox
  infer_instance

/-- OctreeNode::quadrant_for_point: `right = x >= mid_x`, `top = y >= mid_y`;
(false,false) is 0 (SW), (true,false) is 1 (SE), (false,true) is 2 (NW),
(true,true) is 3 (NE). -/
def quadrantFor (b : Bounds3) (x y : ℚ) : ℕ :=
  if (b.minX + b.maxX) / 2 ≤ x then (if (b.minY + b.maxY) / 2 ≤ y then 3 else 1)
  else (if (b.minY + b.maxY) / 2 ≤ y then 2 else 0)

/-- OctreeNode::child_bounds (the default case is unreachable in the
source, which panics there). -/
def childBounds (b : Bounds3) (q : ℕ) : Bounds3 :=
  match q with
  | 0 => ⟨b.minX, b.minY, b.minZ, (b.minX + b.maxX) / 2, (b.minY + b.maxY) / 2, b.maxZ⟩
  | 1 => ⟨(b.minX + b.maxX) / 2, b.minY, b.minZ, b.maxX, (b.minY + b.maxY) / 2, b.maxZ⟩
  | 2 => ⟨b.minX, (b.minY + b.maxY) / 2, b.minZ, (b.minX + b.maxX) / 2, b.maxY, b.maxZ⟩
  | 3 => ⟨(b.minX + b.maxX) / 2, (b.minY + b.maxY) / 2, b.minZ, b.maxX, b.maxY, b.maxZ⟩
  | _ => b

/-- OctreeNode::insert together with the inlined OctreeNode::split.  The
source terminates because splitting only happens while depth < MAX_DEPTH;
that argument is made explicit with a fuel parameter, and lemma
insertF_spec shows fuel 2 * (13 - depth) suffices, so the fuel-exhausted
branch (which returns the node unchanged) is never reached from
quadtreeBuild. -/
def insertF (pts : List LidarPoint) : ℕ → QNode → ℕ → QNode
  | 0, n, _ => n
  | fuel + 1, n, i =>
    if ¬ containsXY n.bounds (pts.getD i default).x (pts.getD i default).y then n
    else
      match n with
      | .node b dpts d c0 c1 c2 c3 =>
        if quadrantFor b (pts.getD i default).x (pts.getD i default).y = 0 then
          .node b dpts d (insertF pts fuel c0 i) c1 c2 c3
        else if quadrantFor b (pts.getD i default).x (pts.getD i default).y = 1 then
          .node b dpts d c0 (insertF pts fuel c1 i) c2 c3
        else if quadrantFor b (pts.getD i default).x (pts.getD i default).y = 2 then
          .node b dpts d c0 c1 (insertF pts fuel c2 i) c3
        else .node b dpts d c0 c1 c2 (insertF pts fuel c3 i)
      | .leaf b lpts d =>
        if maxPointsPerNode < (lpts ++ [i]).length ∧ d < maxDepth then
          (lpts ++ [i]).foldl (fun m j => insertF pts fuel m j)
            (.node b [] d
              (.leaf (childBounds b 0) [] (d + 1)) (.leaf (childBounds b 1) [] (d + 1))
              (.leaf (childBounds b 2) [] (d + 1)) (.leaf (childBounds b 3) [] (d + 1)))
        else .leaf b (lpts ++ [i]) d

/-- All point indices stored in a subtree, own points first, then children
in slot order (the order OctreeNode::query_bbox extends its result). -/
def QNode.allIdx : QNode → List ℕ
  | .leaf _ l _ => l
  | .node _ l _ c0 c1 c2 c3 =>
      l ++ (c0.allIdx ++ (c1.allIdx ++ (c2.allIdx ++ c3.allIdx)))

/-- OctreeNode::query_bbox (the `&mut Vec` accumulator becomes appends). -/
def QNode.queryBbox : QNode → ℚ → ℚ → ℚ → ℚ → List ℕ
  | .leaf b l _, minX, minY, maxX, maxY =>
      if intersectsBbox b minX minY maxX maxY then l else []
  | .node b l _ c0 c1 c2 c3, minX, minY, maxX, maxY =>
      if intersectsBbox b minX minY maxX maxY then
        l ++ (c0.queryBbox minX minY maxX maxY ++ (c1.queryBbox minX minY maxX maxY ++
          (c2.queryBbox minX minY maxX maxY ++ c3.queryBbox minX minY maxX maxY)))
      else []

/-- Padding added to the root bounds in QuadtreeSpatialIndex::build. -/
def qtPadding : ℚ := 1 / 1000

/-- QuadtreeSpatialIndex::build: compute the padded overall bounds once
(z is not padded), then insert every point index in order.  Fuel 64
exceeds the 2 * (13 - depth) ≤ 26 that insertF_spec shows any insertion
consumes. -/
def quadtreeBuild (pts : List LidarPoint) : QNode :=
  let minX := (listMinQ (fun p => p.x) pts).getD 0 - qtPadding
  let minY := (listMinQ (fun p => p.y) pts).getD 0 - qtPadding
  let minZ := (listMinQ (fun p => p.z) pts).getD 0
  let maxX := (listMaxQ (fun p => p.x) pts).getD 0 + qtPadding
  let maxY := (listMaxQ (fun p => p.y) pts).getD 0 + qtPadding
  let maxZ := (listMaxQ (fun p => p.z) pts).getD 0
  (List.range pts.length).foldl (fun n i => insertF pts 64 n i)
    (.leaf ⟨minX, minY, minZ, maxX, maxY, maxZ⟩ [] 0)

/-- QuadtreeSpatialIndex::query_bbox. -/
def quadtreeQueryBbox (root : QNode) (minX minY maxX maxY : ℚ) : List ℕ :=
  root.queryBbox minX minY maxX maxY

/-- Structural invariants of reachable trees (the C7 invariants): depth
bounded by MAX_DEPTH, every stored index's point inside its node's XY
rectangle, internal nodes hold no direct points, leaves below MAX_DEPTH
hold at most MAX_POINTS_PER_NODE indices, children carry the quadrant
bounds and depth + 1, and node rectangles are ordered. -/
def Good (pts : List LidarPoint) : QNode → Prop
  | .leaf b l d =>
      d ≤ maxDepth ∧ b.minX ≤ b.maxX ∧ b.minY ≤ b.maxY ∧
      (∀ i ∈ l, containsXY b (pts.getD i default).x (pts.getD i default).y) ∧
      (d < maxDepth → l.length ≤ maxPointsPerNode)
  | .node b l d c0 c1 c2 c3 =>
      d < maxDepth ∧ b.minX ≤ b.maxX ∧ b.minY ≤ b.maxY ∧ l = [] ∧
      c0.bounds = childBounds b 0 ∧ c1.bounds = childBounds b 1 ∧
      c2.bounds = childBounds b 2 ∧ c3.bounds = childBounds b 3 ∧
      c0.depth = d + 1 ∧ c1.depth = d + 1 ∧ c2.depth = d + 1 ∧ c3.depth = d + 1 ∧
      Good pts c0 ∧ Good pts c1 ∧ Good pts c2 ∧ Good pts c3

theorem listMinQ_spec (f : α → ℚ) : ∀ (l : List α) (a : Option ℚ),
    (∀ v, a = some v →
      ∃ m, l.foldl (fun a p => some (match a with | none => f p | some m => min m (f p))) a
        = some m ∧ m ≤ v) ∧
    (∀ p ∈ l,
      ∃ m, l.foldl (fun a p => some (match a with | none => f p | some m => min m (f p))) a
        = some m ∧ m ≤ f p) := by
  intro l
  induction l with
  | nil =>
    intro a
    exact ⟨fun v hv => ⟨v, by simp [hv], le_refl v⟩, fun p hp => absurd hp (List.not_mem_nil p)⟩
  | cons hd tl ih =>
    intro a
    have hstep : ∃ w, (some (match a with | none => f hd | some m => min m (f hd)) : Option ℚ)
        = some w ∧ w ≤ f hd ∧ (∀ v, a = some v → w ≤ v) := by
      cases a with
      | none => exact ⟨f hd, rfl, le_refl _, fun v hv => by cases hv⟩
      | some u =>
        exact ⟨min u (f hd), rfl, min_le_right u (f hd),
          fun v hv => by cases hv; exact min_le_left _ _⟩
    rcases hstep with ⟨w, hw, hwf, hwa⟩
    constructor
    · intro v hv
      rcases (ih (some w)).1 w rfl with ⟨m, hm, hmw⟩
      refine ⟨m, ?_, le_trans hmw (hwa v hv)⟩
      simpa [hw] using hm
    · intro p hp
      rcases List.mem_cons.mp hp with hp | hp
      · subst hp
        rcases (ih (some w)).1 w rfl with ⟨m, hm, hmw⟩
        refine ⟨m, ?_, le_trans hmw hwf⟩
        simpa [hw] using hm
      · rcases (ih (some w)).2 p hp with ⟨m, hm, hmf⟩
        refine ⟨m, ?_, hmf⟩
        simpa [hw] using hm

theorem listMinQ_le (f : α → ℚ) (l : List α) (p : α) (hp : p ∈ l) :
    (listMinQ f l).getD 0 ≤ f p := by
  rcases (listMinQ_spec f l none).2 p hp with ⟨m, hm, hmf⟩
  unfold listMinQ
  rw [hm]
  exact hmf

theorem listMaxQ_spec (f : α → ℚ) : ∀ (l : List α) (a : Option ℚ),
    (∀ v, a = some v →
      ∃ m, l.foldl (fun a p => some (match a with | none => f p | some m => max m (f p))) a
        = some m ∧ v ≤ m) ∧
    (∀ p ∈ l,
      ∃ m, l.foldl (fun a p => some (match a with | none => f p | some m => max m (f p))) a
        = some m ∧ f p ≤ m) := by
  intro l
  induction l with
  | nil =>
    intro a
    exact ⟨fun v hv => ⟨v, by simp [hv], le_refl v⟩, fun p hp => absurd hp (List.not_mem_nil p)⟩
  | cons hd tl ih =>
    intro a
    have hstep : ∃ w, (some (match a with | none => f hd | some m => max m (f hd)) : Option ℚ)
        = some w ∧ f hd ≤ w ∧ (∀ v, a = some v → v ≤ w) := by
      cases a with
      | none => exact ⟨f hd, rfl, le_refl _, fun v hv => by cases hv⟩
      | some u =>
        exact ⟨max u (f hd), rfl, le_max_right u (f hd),
          fun v hv => by cases hv; exact le_max_left _ _⟩
    rcases hstep with ⟨w, hw, hwf, hwa⟩
    constructor
    · intro v hv
      rcases (ih (some w)).1 w rfl with ⟨m, hm, hmw⟩
      refine ⟨m, ?_, le_trans (hwa v hv) hmw⟩
      simpa [hw] using hm
    · intro p hp
      rcases List.mem_cons.mp hp with hp | hp
      · subst hp
        rcases (ih (some w)).1 w rfl with ⟨m, hm, hmw⟩
        refine ⟨m, ?_, le_trans hwf hmw⟩
        simpa [hw] using hm
      · rcases (ih (some w)).2 p hp with ⟨m, hm, hmf⟩
        refine ⟨m, ?_, hmf⟩
        simpa [hw] using hm

theorem listMaxQ_ge (f : α → ℚ) (l : List α) (p : α) (hp : p ∈ l) :
    f p ≤ (listMaxQ f l).getD 0 := by
  rcases (listMaxQ_spec f l none).2 p hp with ⟨m, hm, hmf⟩
  unfold listMaxQ
  rw [hm]
  exact hmf

theorem quadrantFor_cases (b : Bounds3) (x y : ℚ) :
    quadrantFor b x y = 0 ∨ quadrantFor b x y = 1 ∨
    quadrantFor b x y = 2 ∨ quadrantFor b x y = 3 := by
  unfold quadrantFor
  split <;> split <;> simp

/-- A point inside a child rectangle is inside the parent rectangle
(needs the parent rectangle to be ordered so the midpoints lie inside). -/
theorem containsXY_of_childBounds (b : Bounds3) (q : ℕ)
    (hx : b.minX ≤ b.maxX) (hy : b.minY ≤ b.maxY) (x y : ℚ)
    (h : containsXY (childBounds b q) x y) : containsXY b x y := by
  rcases q with _ | _ | _ | _ | q <;>
    · simp only [childBounds, containsXY] at h ⊢
      obtain ⟨h1, h2, h3, h4⟩ := h
      refine ⟨by linarith, by linarith, by linarith, by linarith⟩

/-- A point inside a rectangle is inside the child rectangle of the
quadrant chosen for it. -/
theorem contains_childBounds_quadrant (b : Bounds3) (x y : ℚ)
    (h : containsXY b x y) :
    containsXY (childBounds b (quadrantFor b x y)) x y := by
  obtain ⟨h1, h2, h3, h4⟩ := h
  unfold quadrantFor
  split <;> split <;>
    · simp only [childBounds, containsXY]
      refine ⟨by linarith, by linarith, by linarith, by linarith⟩

/-- Child rectangles of an ordered rectangle are ordered. -/
theorem childBounds_ordered (b : Bounds3) (q : ℕ)
    (hx : b.minX ≤ b.maxX) (hy : b.minY ≤ b.maxY) :
    (childBounds b q).minX ≤ (childBounds b q).maxX ∧
    (childBounds b q).minY ≤ (childBounds b q).maxY := by
  rcases q with _ | _ | _ | _ | q <;>
    · simp only [childBounds]
      exact ⟨by linarith, by linarith⟩

/-- Fuel sufficient for insertF at a node (2 units per remaining level;
an internal node has already paid for its split). -/
def fuelNeed : QNode → ℕ
  | .leaf _ _ d => 2 * (13 - d)
  | .node _ _ d _ _ _ _ => 2 * (13 - d) - 1

/-- insertF never changes a node's bounds or depth, and never increases
the fuel it needs (a leaf can only turn into a node at the same depth). -/
theorem insertF_preserves (pts : List LidarPoint) :
    ∀ fuel n i, (insertF pts fuel n i).bounds = n.bounds ∧
      (insertF pts fuel n i).depth = n.depth ∧
      fuelNeed (insertF pts fuel n i) ≤ fuelNeed n := by
  intro fuel
  induction fuel with
  | zero => exact fun n i => ⟨rfl, rfl, le_refl _⟩
  | succ fuel ih =>
    have hfold : ∀ (l : List ℕ) (m : QNode),
        (l.foldl (fun m j => insertF pts fuel m j) m).bounds = m.bounds ∧
        (l.foldl (fun m j => insertF pts fuel m j) m).depth = m.depth ∧
        fuelNeed (l.foldl (fun m j => insertF pts fuel m j) m) ≤ fuelNeed m := by
      intro l
      induction l with
      | nil => exact fun m => ⟨rfl, rfl, le_refl _⟩
      | cons hd tl ihl =>
        intro m
        rcases ihl (insertF pts fuel m hd) with ⟨hb, hd2, hf⟩
        rcases ih m hd with ⟨hb2, hd3, hf2⟩
        exact ⟨by rw [List.foldl_cons, hb, hb2], by rw [List.foldl_cons, hd2, hd3],
          by rw [List.foldl_cons]; exact le_trans hf hf2⟩
    intro n i
    cases n with
    | leaf b l d =>
      rw [insertF]
      split
      · exact ⟨rfl, rfl, le_refl _⟩
      · split
        · rcases hfold (l ++ [i])
            (.node b [] d
              (.leaf (childBounds b 0) [] (d + 1)) (.leaf (childBounds b 1) [] (d + 1))
              (.leaf (childBounds b 2) [] (d + 1)) (.leaf (childBounds b 3) [] (d + 1)))
            with ⟨hb, hd2, hf⟩
          refine ⟨hb, hd2, le_trans hf ?_⟩
          show fuelNeed (.node b [] d _ _ _ _) ≤ fuelNeed (.leaf b l d)
          simp only [fuelNeed]
          omega
        · exact ⟨rfl, rfl, le_refl _⟩
    | node b dpts d c0 c1 c2 c3 =>
      rw [insertF]
      split
      · exact ⟨rfl, rfl, le_refl _⟩
      · split
        · exact ⟨rfl, rfl, le_refl _⟩
        · split
          · exact ⟨rfl, rfl, le_refl _⟩
          · split
            · exact ⟨rfl, rfl, le_refl _⟩
            · exact ⟨rfl, rfl, le_refl _⟩

theorem fuelNeed_le_of_depth (m : QNode) (d : ℕ) (hm : m.depth = d + 1) :
    fuelNeed m ≤ 2 * (13 - (d + 1)) := by
  cases m with
  | leaf b l d2 =>
    simp only [QNode.depth] at hm
    simp [fuelNeed, hm]
  | node b l d2 c0 c1 c2 c3 =>
    simp only [QNode.depth] at hm
    simp only [fuelNeed, hm]
    omega

set_option maxHeartbeats 2000000 in
/-- Main insertion lemma: with fuel at least `fuelNeed`, inserting an index
whose point lies in the node rectangle preserves the invariants and adds
exactly that index to the stored set. -/
theorem insertF_spec (pts : List LidarPoint) :
    ∀ fuel n i, Good pts n → fuelNeed n ≤ fuel →
      containsXY n.bounds (pts.getD i default).x (pts.getD i default).y →
      Good pts (insertF pts fuel n i) ∧
      (∀ j, j ∈ (insertF pts fuel n i).allIdx ↔ j = i ∨ j ∈ n.allIdx) := by
  intro fuel
  induction fuel with
  | zero =>
    intro n i hg hf hc
    exfalso
    cases n with
    | leaf b l d =>
      have hd12 : d ≤ maxDepth := hg.1
      simp only [fuelNeed, maxDepth, Nat.le_zero] at hf hd12
      omega
    | node b l d c0 c1 c2 c3 =>
      have hd12 : d < maxDepth := hg.1
      simp only [fuelNeed, maxDepth, Nat.le_zero] at hf hd12
      omega
  | succ fuel ih =>
    have hfold : ∀ (l : List ℕ) (m : QNode), Good pts m → fuelNeed m ≤ fuel →
        (∀ j ∈ l, containsXY m.bounds (pts.getD j default).x (pts.getD j default).y) →
        Good pts (l.foldl (fun m j => insertF pts fuel m j) m) ∧
        (∀ j, j ∈ (l.foldl (fun m j => insertF pts fuel m j) m).allIdx ↔
          j ∈ l ∨ j ∈ m.allIdx) := by
      intro l
      induction l with
      | nil =>
        intro m hg hf _
        exact ⟨hg, fun j => by simp⟩
      | cons hd tl ihl =>
        intro m hg hf hc
        rcases ih m hd hg hf (hc hd (by simp)) with ⟨hg2, hidx⟩
        rcases insertF_preserves pts fuel m hd with ⟨hb, _, hfn⟩
        rcases ihl (insertF pts fuel m hd) hg2 (le_trans hfn hf)
          (fun j hj => by rw [hb]; exact hc j (by simp [hj])) with ⟨hg3, hidx3⟩
        refine ⟨by rw [List.foldl_cons]; exact hg3, fun j => ?_⟩
        rw [List.foldl_cons, hidx3 j, hidx j]
        constructor
        · rintro (hj | hj | hj)
          · exact Or.inl (List.mem_cons_of_mem _ hj)
          · exact Or.inl (by simp [hj])
          · exact Or.inr hj
        · rintro (hj | hj)
          · rcases List.mem_cons.mp hj with hj | hj
            · exact Or.inr (Or.inl hj)
            · exact Or.inl hj
          · exact Or.inr (Or.inr hj)
    intro n i hg hf hc
    cases n with
    | leaf b l d =>
      obtain ⟨hd12, hbx, hby, hcont, hcap⟩ := hg
      simp only [insertF]
      rw [if_neg (not_not_intro hc)]
      split
      case isTrue hover =>
        have hdlt : d < maxDepth := hover.2
        have hbase : Good pts (QNode.node b [] d
            (.leaf (childBounds b 0) [] (d + 1)) (.leaf (childBounds b 1) [] (d + 1))
            (.leaf (childBounds b 2) [] (d + 1)) (.leaf (childBounds b 3) [] (d + 1))) := by
          refine ⟨hdlt, hbx, hby, rfl, rfl, rfl, rfl, rfl, rfl, rfl, rfl, rfl, ?_, ?_, ?_, ?_⟩ <;>
            exact ⟨by omega, (childBounds_ordered b _ hbx hby).1,
              (childBounds_ordered b _ hbx hby).2,
              fun j hj => absurd hj (List.not_mem_nil j),
              fun _ => by simp [maxPointsPerNode]⟩
        have hcall : ∀ j ∈ l ++ [i],
            containsXY b (pts.getD j default).x (pts.getD j default).y := by
          intro j hj
          rcases List.mem_append.mp hj with hj | hj
          · exact hcont j hj
          · rw [List.mem_singleton.mp hj]
            exact hc
        have hfneed : fuelNeed (QNode.node b [] d
            (.leaf (childBounds b 0) [] (d + 1)) (.leaf (childBounds b 1) [] (d + 1))
            (.leaf (childBounds b 2) [] (d + 1)) (.leaf (childBounds b 3) [] (d + 1)))
            ≤ fuel := by
          simp only [fuelNeed] at hf ⊢
          omega
        rcases hfold (l ++ [i]) _ hbase hfneed hcall with ⟨hgF, hidxF⟩
        refine ⟨hgF, fun j => ?_⟩
        rw [hidxF j]
        simp only [QNode.allIdx, List.mem_append, List.mem_singleton, List.not_mem_nil,
          or_false]
        tauto
      case isFalse hover =>
        refine ⟨⟨hd12, hbx, hby, ?_, ?_⟩, fun j => ?_⟩
        · intro j hj
          rcases List.mem_append.mp hj with hj | hj
          · exact hcont j hj
          · rw [List.mem_singleton.mp hj]
            exact hc
        · intro hdlt
          have : ¬ maxPointsPerNode < (l ++ [i]).length := fun hlen => hover ⟨hlen, hdlt⟩
          omega
        · simp only [QNode.allIdx, List.mem_append, List.mem_singleton]
          tauto
    | node b dpts d c0 c1 c2 c3 =>
      obtain ⟨hd12, hbx, hby, hdpts, hcb0, hcb1, hcb2, hcb3, hcd0, hcd1, hcd2, hcd3,
        hg0, hg1, hg2, hg3⟩ := hg
      have hcq := contains_childBounds_quadrant b (pts.getD i default).x
        (pts.getD i default).y hc
      have hfuel : ∀ m : QNode, m.depth = d + 1 → fuelNeed m ≤ fuel := by
        intro m hm
        have h1 := fuelNeed_le_of_depth m d hm
        simp only [fuelNeed, maxDepth] at hf
        simp only [maxDepth] at hd12
        omega
      simp only [insertF]
      rw [if_neg (not_not_intro hc)]
      split
      case isTrue hq =>
        rw [hq] at hcq
        rw [← hcb0] at hcq
        rcases ih c0 i hg0 (hfuel c0 hcd0) hcq with ⟨hgc, hidxc⟩
        rcases insertF_preserves pts fuel c0 i with ⟨hbp, hdp, _⟩
        refine ⟨⟨hd12, hbx, hby, hdpts, by rw [hbp, hcb0], hcb1, hcb2, hcb3,
          by rw [hdp, hcd0], hcd1, hcd2, hcd3, hgc, hg1, hg2, hg3⟩, fun j => ?_⟩
        simp only [QNode.allIdx, List.mem_append, hidxc j]
        tauto
      case isFalse hq0 =>
        split
        case isTrue hq =>
          rw [hq] at hcq
          rw [← hcb1] at hcq
          rcases ih c1 i hg1 (hfuel c1 hcd1) hcq with ⟨hgc, hidxc⟩
          rcases insertF_preserves pts fuel c1 i with ⟨hbp, hdp, _⟩
          refine ⟨⟨hd12, hbx, hby, hdpts, hcb0, by rw [hbp, hcb1], hcb2, hcb3,
            hcd0, by rw [hdp, hcd1], hcd2, hcd3, hg0, hgc, hg2, hg3⟩, fun j => ?_⟩
          simp only [QNode.allIdx, List.mem_append, hidxc j]
          tauto
        case isFalse hq1 =>
          split
          case isTrue hq =>
            rw [hq] at hcq
            rw [← hcb2] at hcq
            rcases ih c2 i hg2 (hfuel c2 hcd2) hcq with ⟨hgc, hidxc⟩
            rcases insertF_preserves pts fuel c2 i with ⟨hbp, hdp, _⟩
            refine ⟨⟨hd12, hbx, hby, hdpts, hcb0, hcb1, by rw [hbp, hcb2], hcb3,
              hcd0, hcd1, by rw [hdp, hcd2], hcd3, hg0, hg1, hgc, hg3⟩, fun j => ?_⟩
            simp only [QNode.allIdx, List.mem_append, hidxc j]
            tauto
          case isFalse hq2 =>
            have hq : quadrantFor b (pts.getD i default).x (pts.getD i default).y = 3 := by
              rcases quadrantFor_cases b (pts.getD i default).x (pts.getD i default).y with
                h | h | h | h
              · exact absurd h hq0
              · exact absurd h hq1
              · exact absurd h hq2
              · exact h
            rw [hq] at hcq
            rw [← hcb3] at hcq
            rcases ih c3 i hg3 (hfuel c3 hcd3) hcq with ⟨hgc, hidxc⟩
            rcases insertF_preserves pts fuel c3 i with ⟨hbp, hdp, _⟩
            refine ⟨⟨hd12, hbx, hby, hdpts, hcb0, hcb1, hcb2, by rw [hbp, hcb3],
              hcd0, hcd1, hcd2, by rw [hdp, hcd3], hg0, hg1, hg2, hgc⟩, fun j => ?_⟩
            simp only [QNode.allIdx, List.mem_append, hidxc j]
            tauto

theorem fuelNeed_le_26 (m : QNode) : fuelNeed m ≤ 26 := by
  cases m <;> simp only [fuelNeed] <;> omega

theorem getD_mem_of_lt (l : List LidarPoint) (j : ℕ) (hj : j < l.length) :
    l.getD j default ∈ l := by
  rw [List.getD_eq_getElem l default hj]
  exact List.getElem_mem hj

/-- Folding insertF over a list of indices whose points all lie in the
accumulated node's rectangle. -/
theorem foldl_insertF_spec (pts : List LidarPoint) (B : Bounds3) :
    ∀ (ixs : List ℕ) (m : QNode), Good pts m → m.bounds = B →
      (∀ j ∈ ixs, containsXY B (pts.getD j default).x (pts.getD j default).y) →
      Good pts (ixs.foldl (fun n j => insertF pts 64 n j) m) ∧
      (ixs.foldl (fun n j => insertF pts 64 n j) m).bounds = B ∧
      (∀ j, j ∈ (ixs.foldl (fun n j => insertF pts 64 n j) m).allIdx ↔
        j ∈ ixs ∨ j ∈ m.allIdx) := by
  intro ixs
  induction ixs with
  | nil =>
    intro m hg hb _
    exact ⟨hg, hb, fun j => by simp⟩
  | cons hd tl ih =>
    intro m hg hb hc
    have hstep := insertF_spec pts 64 m hd hg
      (le_trans (fuelNeed_le_26 m) (by omega))
      (by rw [hb]; exact hc hd (by simp))
    rcases hstep with ⟨hg2, hidx⟩
    rcases insertF_preserves pts 64 m hd with ⟨hbp, _, _⟩
    rcases ih (insertF pts 64 m hd) hg2 (by rw [hbp, hb])
      (fun j hj => hc j (by simp [hj])) with ⟨hg3, hb3, hidx3⟩
    refine ⟨by rw [List.foldl_cons]; exact hg3,
      by rw [List.foldl_cons]; exact hb3, fun j => ?_⟩
    rw [List.foldl_cons, hidx3 j, hidx j]
    constructor
    · rintro (hj | hj | hj)
      · exact Or.inl (List.mem_cons_of_mem _ hj)
      · exact Or.inl (by simp [hj])
      · exact Or.inr hj
    · rintro (hj | hj)
      · rcases List.mem_cons.mp hj with hj | hj
        · exact Or.inr (Or.inl hj)
        · exact Or.inl hj
      · exact Or.inr (Or.inr hj)

/-- The padded root rectangle computed once up front by
QuadtreeSpatialIndex::build. -/
def rootBounds (pts : List LidarPoint) : Bounds3 :=
  ⟨(listMinQ (fun p => p.x) pts).getD 0 - qtPadding,
   (listMinQ (fun p => p.y) pts).getD 0 - qtPadding,
   (listMinQ (fun p => p.z) pts).getD 0,
   (listMaxQ (fun p => p.x) pts).getD 0 + qtPadding,
   (listMaxQ (fun p => p.y) pts).getD 0 + qtPadding,
   (listMaxQ (fun p => p.z) pts).getD 0⟩

theorem listMinQ_le_listMaxQ (f : LidarPoint → ℚ) (l : List LidarPoint) :
    (listMinQ f l).getD 0 ≤ (listMaxQ f l).getD 0 := by
  cases l with
  | nil => simp [listMinQ, listMaxQ]
  | cons hd tl =>
    exact le_trans (listMinQ_le f (hd :: tl) hd (by simp))
      (listMaxQ_ge f (hd :: tl) hd (by simp))

theorem rootBounds_contains (pts : List LidarPoint) (j : ℕ) (hj : j < pts.length) :
    containsXY (rootBounds pts) (pts.getD j default).x (pts.getD j default).y := by
  have hmem := getD_mem_of_lt pts j hj
  have h1 := listMinQ_le (fun p => p.x) pts _ hmem
  have h2 := listMaxQ_ge (fun p => p.x) pts _ hmem
  have h3 := listMinQ_le (fun p => p.y) pts _ hmem
  have h4 := listMaxQ_ge (fun p => p.y) pts _ hmem
  have hpad : (0:ℚ) < qtPadding := by norm_num [qtPadding]
  simp only at h1 h2 h3 h4
  exact ⟨by simp only [rootBounds]; linarith, by simp only [rootBounds]; linarith,
    by simp only [rootBounds]; linarith, by simp only [rootBounds]; linarith⟩

/-- QuadtreeSpatialIndex::build produces a well-formed tree whose root
rectangle is the padded data rectangle and which stores exactly the
input indices. -/
theorem quadtreeBuild_spec (pts : List LidarPoint) :
    Good pts (quadtreeBuild pts) ∧
    (quadtreeBuild pts).bounds = rootBounds pts ∧
    (∀ j, j ∈ (quadtreeBuild pts).allIdx ↔ j < pts.length) := by
  have hroot : Good pts (QNode.leaf (rootBounds pts) [] 0) := by
    have hpad : (0:ℚ) < qtPadding := by norm_num [qtPadding]
    have hx := listMinQ_le_listMaxQ (fun p => p.x) pts
    have hy := listMinQ_le_listMaxQ (fun p => p.y) pts
    exact ⟨by simp [maxDepth], by simp only [rootBounds]; linarith,
      by simp only [rootBounds]; linarith,
      fun j hj => absurd hj (List.not_mem_nil j), fun _ => by simp⟩
  have hfold := foldl_insertF_spec pts (rootBounds pts) (List.range pts.length)
    (QNode.leaf (rootBounds pts) [] 0) hroot rfl
    (fun j hj => rootBounds_contains pts j (List.mem_range.mp hj))
  rcases hfold with ⟨hg, hb, hidx⟩
  refine ⟨hg, hb, fun j => ?_⟩
  rw [show (quadtreeBuild pts) = (List.range pts.length).foldl
    (fun n j => insertF pts 64 n j) (QNode.leaf (rootBounds pts) [] 0) from rfl]
  rw [hidx j]
  simp [QNode.allIdx]

/-- Raw query candidates are always stored indices. -/
theorem queryBbox_sound (n : QNode) (minX minY maxX maxY : ℚ) (j : ℕ)
    (hj : j ∈ n.queryBbox minX minY maxX maxY) : j ∈ n.allIdx := by
  induction n with
  | leaf b l d =>
    simp only [QNode.queryBbox] at hj
    split at hj
    · exact hj
    · cases hj
  | node b l d c0 c1 c2 c3 ih0 ih1 ih2 ih3 =>
    simp only [QNode.queryBbox] at hj
    split at hj
    · simp only [QNode.allIdx, List.mem_append]
      simp only [List.mem_append] at hj
      rcases hj with hj | hj | hj | hj | hj
      · exact Or.inl hj
      · exact Or.inr (Or.inl (ih0 hj))
      · exact Or.inr (Or.inr (Or.inl (ih1 hj)))
      · exact Or.inr (Or.inr (Or.inr (Or.inl (ih2 hj))))
      · exact Or.inr (Or.inr (Or.inr (Or.inr (ih3 hj))))
    · cases hj

/-- Every stored index of a well-formed subtree has its point inside the
subtree's rectangle. -/
theorem Good_allIdx_contains (pts : List LidarPoint) (n : QNode) (hg : Good pts n)
    (j : ℕ) (hj : j ∈ n.allIdx) :
    containsXY n.bounds (pts.getD j default).x (pts.getD j default).y := by
  induction n with
  | leaf b l d => exact hg.2.2.2.1 j hj
  | node b l d c0 c1 c2 c3 ih0 ih1 ih2 ih3 =>
    obtain ⟨_, hbx, hby, hdpts, hcb0, hcb1, hcb2, hcb3, _, _, _, _,
      hg0, hg1, hg2, hg3⟩ := hg
    simp only [QNode.allIdx, List.mem_append] at hj
    rcases hj with hj | hj | hj | hj | hj
    · rw [hdpts] at hj
      cases hj
    · exact containsXY_of_childBounds b 0 hbx hby _ _ (hcb0 ▸ ih0 hg0 hj)
    · exact containsXY_of_childBounds b 1 hbx hby _ _ (hcb1 ▸ ih1 hg1 hj)
    · exact containsXY_of_childBounds b 2 hbx hby _ _ (hcb2 ▸ ih2 hg2 hj)
    · exact containsXY_of_childBounds b 3 hbx hby _ _ (hcb3 ▸ ih3 hg3 hj)

/-- Quadtree query completeness: a stored index whose point lies in the
query rectangle appears among the raw candidates. -/
theorem queryBbox_complete (pts : List LidarPoint) (n : QNode) (hg : Good pts n)
    (j : ℕ) (hj : j ∈ n.allIdx) (minX minY maxX maxY : ℚ)
    (hx1 : minX ≤ (pts.getD j default).x) (hx2 : (pts.getD j default).x ≤ maxX)
    (hy1 : minY ≤ (pts.getD j default).y) (hy2 : (pts.getD j default).y ≤ maxY) :
    j ∈ n.queryBbox minX minY maxX maxY := by
  induction n with
  | leaf b l d =>
    have hcont := Good_allIdx_contains pts _ hg j hj
    obtain ⟨hc1, hc2, hc3, hc4⟩ := hcont
    simp only [QNode.queryBbox]
    rw [if_pos]
    · exact hj
    · simp only [intersectsBbox, QNode.bounds] at hc1 hc2 hc3 hc4 ⊢
      push_neg
      exact ⟨by linarith, by linarith, by linarith, by linarith⟩
  | node b l d c0 c1 c2 c3 ih0 ih1 ih2 ih3 =>
    have hcont := Good_allIdx_contains pts _ hg j hj
    obtain ⟨hc1, hc2, hc3, hc4⟩ := hcont
    obtain ⟨_, _, _, hdpts, _, _, _, _, _, _, _, _, hg0, hg1, hg2, hg3⟩ := hg
    simp only [QNode.allIdx, List.mem_append] at hj
    simp only [QNode.queryBbox]
    rw [if_pos]
    · simp only [List.mem_append]
      rcases hj with hj | hj | hj | hj | hj
      · exact Or.inl hj
      · exact Or.inr (Or.inl (ih0 hg0 hj))
      · exact Or.inr (Or.inr (Or.inl (ih1 hg1 hj)))
      · exact Or.inr (Or.inr (Or.inr (Or.inl (ih2 hg2 hj))))
      · exact Or.inr (Or.inr (Or.inr (Or.inr (ih3 hg3 hj))))
    · simp only [intersectsBbox, QNode.bounds] at hc1 hc2 hc3 hc4 ⊢
      push_neg
      exact ⟨by linarith, by linarith, by linarith, by linarith⟩

-- ============================================================================
-- Lidar::filter_points_with_spatial_index
-- ============================================================================

/-- The exact bbox membership test used throughout the source:
`p.x >= x_min && p.x <= x_max && p.y >= y_min && p.y <= y_max`. -/
def inRect (xMin yMin xMax yMax : ℚ) (p : LidarPoint) : Bool :=
  decide (xMin ≤ p.x) && decide (p.x ≤ xMax) && decide (yMin ≤ p.y) && decide (p.y ≤ yMax)

theorem inRect_iff (xMin yMin xMax yMax : ℚ) (p : LidarPoint) :
    inRect xMin yMin xMax yMax p = true ↔
      xMin ≤ p.x ∧ p.x ≤ xMax ∧ yMin ≤ p.y ∧ p.y ≤ yMax := by
  simp [inRect, and_assoc]

/-- The sampled points of filter_points_with_spatial_index:
`sample_size = (count / 100).max(100).min(count)`, `step = count / sample_size`,
then every point at index `0, step, 2 * step, ...` below `count`
(`(0..count).step_by(step.max(1))`). -/
def samplePoints (points : List LidarPoint) : List LidarPoint :=
  (List.range ((points.length +
      max (points.length / min (max (points.length / 100) 100) points.length) 1 - 1) /
      max (points.length / min (max (points.length / 100) 100) points.length) 1)).map
    (fun k => points.getD
      (k * max (points.length / min (max (points.length / 100) 100) points.length) 1)
      default)

/-- Sampled data bounds (min/max folds seeded with infinities). -/
def dataMinX (points : List LidarPoint) : ℚ :=
  (listMinQ (fun p => p.x) (samplePoints points)).getD 0

def dataMinY (points : List LidarPoint) : ℚ :=
  (listMinQ (fun p => p.y) (samplePoints points)).getD 0

def dataMaxX (points : List LidarPoint) : ℚ :=
  (listMaxQ (fun p => p.x) (samplePoints points)).getD 0

def dataMaxY (points : List LidarPoint) : ℚ :=
  (listMaxQ (fun p => p.y) (samplePoints points)).getD 0

/-- Estimated query selectivity: query area over sampled data area, 1.0
when the data area is not positive. -/
def selectivity (points : List LidarPoint) (xMin yMin xMax yMax : ℚ) : ℚ :=
  if 0 < (dataMaxX points - dataMinX points) * (dataMaxY points - dataMinY points) then
    ((xMax - xMin) * (yMax - yMin)) /
      ((dataMaxX points - dataMinX points) * (dataMaxY points - dataMinY points))
  else 1

/-- Grid cell size: `((dx / 100).max(dy / 100)).max(10.0)` (minimum 10 units). -/
def gridCellSizeFor (points : List LidarPoint) : ℚ :=
  max (max ((dataMaxX points - dataMinX points) / 100)
    ((dataMaxY points - dataMinY points) / 100)) 10

/-- Final precise filtering of raw index candidates
(`candidate_indices.into_iter().filter_map(...)`). -/
def exactFilterByIdx (points : List LidarPoint) (xMin yMin xMax yMax : ℚ)
    (cand : List ℕ) : List LidarPoint :=
  cand.filterMap (fun i =>
    if inRect xMin yMin xMax yMax (points.getD i default) then
      some (points.getD i default)
    else none)

/-- Lidar::filter_points_with_spatial_index: linear scan below 10_000
points; otherwise grid index when estimated selectivity exceeds 50% or
below 100_000 points; otherwise quadtree.  Raw candidates always pass
through the final precise filter. -/
def filter_points_with_spatial_index (points : List LidarPoint)
    (xMin yMin xMax yMax : ℚ) : List LidarPoint :=
  if points.length < 10000 then
    points.filter (fun p => inRect xMin yMin xMax yMax p)
  else if 1/2 < selectivity points xMin yMin xMax yMax ∨ points.length < 100000 then
    exactFilterByIdx points xMin yMin xMax yMax
      ((SpatialGridIndex.build_from_points points (gridCellSizeFor points)).query_bbox
        xMin yMin xMax yMax)
  else
    exactFilterByIdx points xMin yMin xMax yMax
      (quadtreeQueryBbox (quadtreeBuild points) xMin yMin xMax yMax)

theorem buildCells_mem_inv (ck : LidarPoint → GridCellKey)
    (pairs : List (ℕ × LidarPoint)) (k : GridCellKey) (j : ℕ)
    (hj : j ∈ buildCells ck pairs k) : ∃ p, (j, p) ∈ pairs ∧ ck p = k := by
  unfold buildCells at hj
  rcases buildCells_sound ck pairs (fun _ => []) k j hj with h | h
  · cases h
  · exact h

theorem mem_query_bbox_cells (idx : SpatialGridIndex) (minX minY maxX maxY : ℚ)
    (i : ℕ) (h : i ∈ idx.query_bbox minX minY maxX maxY) :
    ∃ k, i ∈ idx.cells k := by
  simp only [SpatialGridIndex.query_bbox] at h
  rcases List.mem_flatMap.mp h with ⟨col, _, h⟩
  rcases List.mem_flatMap.mp h with ⟨row, _, h⟩
  exact ⟨⟨col, row⟩, h⟩

/-- Indices produced by a built grid index are valid point indices. -/
theorem grid_build_query_valid (points : List LidarPoint) (cs : ℚ)
    (minX minY maxX maxY : ℚ) (i : ℕ)
    (h : i ∈ (SpatialGridIndex.build_from_points points cs).query_bbox minX minY maxX maxY) :
    i < points.length := by
  rcases mem_query_bbox_cells _ _ _ _ _ _ h with ⟨k, hk⟩
  have hk2 : i ∈ buildCells
      (fun q => cellKeyOf cs ((listMinQ (fun r => r.x) points).getD 0)
        ((listMinQ (fun r => r.y) points).getD 0) q.x q.y) points.enum k := hk
  rcases buildCells_mem_inv _ points.enum k i hk2 with ⟨p, hp, _⟩
  have := List.mk_mem_enum_iff_getElem?.mp hp
  exact (List.getElem?_eq_some_iff.mp this).1

theorem exactFilterByIdx_mem (points : List LidarPoint) (xMin yMin xMax yMax : ℚ)
    (cand : List ℕ) (q : LidarPoint) :
    q ∈ exactFilterByIdx points xMin yMin xMax yMax cand ↔
      (∃ i ∈ cand, points.getD i default = q) ∧ inRect xMin yMin xMax yMax q = true := by
  unfold exactFilterByIdx
  rw [List.mem_filterMap]
  constructor
  · rintro ⟨i, hi, hq⟩
    split at hq
    · cases hq
      exact ⟨⟨i, hi, rfl⟩, by assumption⟩
    · cases hq
  · rintro ⟨⟨i, hi, hq⟩, hr⟩
    refine ⟨i, hi, ?_⟩
    rw [hq, if_pos hr]

/-- C3 body: exactness of filter_points_with_spatial_index on all three
paths: a point value is in the output iff it is in the input and inside
the rectangle. -/
theorem filter_points_exact (points : List LidarPoint) (xMin yMin xMax yMax : ℚ)
    (q : LidarPoint) :
    q ∈ filter_points_with_spatial_index points xMin yMin xMax yMax ↔
      q ∈ points ∧ inRect xMin yMin xMax yMax q = true := by
  unfold filter_points_with_spatial_index
  split
  · rw [List.mem_filter]
  · split
    · -- grid path
      rw [exactFilterByIdx_mem points xMin yMin xMax yMax _]
      constructor
      · rintro ⟨⟨i, hi, hq⟩, hr⟩
        have hlt := grid_build_query_valid points _ _ _ _ _ i hi
        refine ⟨?_, hr⟩
        rw [← hq]
        exact getD_mem_of_lt points i hlt
      · rintro ⟨hq, hr⟩
        rcases List.mem_iff_getElem.mp hq with ⟨i, hlt, hi⟩
        have hgd : points.getD i default = q := by
          rw [List.getD_eq_getElem?_getD, List.getElem?_eq_getElem hlt, hi]
          rfl
        obtain ⟨hr1, hr2, hr3, hr4⟩ := (inRect_iff _ _ _ _ q).mp hr
        refine ⟨⟨i, ?_, hgd⟩, hr⟩
        have hq? : points[i]? = some q := by rw [List.getElem?_eq_getElem hlt, hi]
        refine grid_build_query_complete points (gridCellSizeFor points) ?_ i q hq?
          xMin yMin xMax yMax hr1 hr2 hr3 hr4
        exact lt_of_lt_of_le (by norm_num) (le_max_right _ 10)
    · -- quadtree path
      rcases quadtreeBuild_spec points with ⟨hg, _, hidx⟩
      have hvalid : ∀ i ∈ quadtreeQueryBbox (quadtreeBuild points) xMin yMin xMax yMax,
          i < points.length := by
        intro i hi
        exact (hidx i).mp (queryBbox_sound _ _ _ _ _ i hi)
      rw [exactFilterByIdx_mem points xMin yMin xMax yMax _]
      constructor
      · rintro ⟨⟨i, hi, hq⟩, hr⟩
        refine ⟨?_, hr⟩
        rw [← hq]
        exact getD_mem_of_lt points i (hvalid i hi)
      · rintro ⟨hq, hr⟩
        rcases List.mem_iff_getElem.mp hq with ⟨i, hlt, hi⟩
        have hgd : points.getD i default = q := by
          rw [List.getD_eq_getElem?_getD, List.getElem?_eq_getElem hlt, hi]
          rfl
        obtain ⟨hr1, hr2, hr3, hr4⟩ := (inRect_iff _ _ _ _ q).mp hr
        refine ⟨⟨i, ?_, hgd⟩, hr⟩
        exact queryBbox_complete points _ hg i ((hidx i).mpr hlt) xMin yMin xMax yMax
          (by rw [hgd]; exact hr1) (by rw [hgd]; exact hr2)
          (by rw [hgd]; exact hr3) (by rw [hgd]; exact hr4)

-- ============================================================================
-- Lidar::process_lidar_points  (rasterization engine)
-- ============================================================================

/-- Raster grid; `none` models the `f64::NEG_INFINITY` "no data" sentinel
of the `Vec<Vec<f64>>` grids. -/
abbrev Grid := ℕ → ℕ → Option ℚ

/-- Column of a point: `((x - x_min) / resolution).floor() as usize`
(for a negative value both the saturating cast and `Int.toNat` give 0). -/
def colOf (xMin res : ℚ) (p : LidarPoint) : ℕ := (⌊(p.x - xMin) / res⌋).toNat

/-- Row of a point: `((y_max - y) / resolution).floor() as usize`
(y is inverted: the row index grows as y falls). -/
def rowOf (yMax res : ℚ) (p : LidarPoint) : ℕ := (⌊(yMax - p.y) / res⌋).toNat

/-- Conditional max-update of one cell:
`if z > cur || cur == NEG_INFINITY { cur = z }`. -/
def gridMaxUpd (g : Grid) (r c : ℕ) (z : ℚ) : Grid :=
  fun r2 c2 =>
    if r2 = r ∧ c2 = c then
      match g r c with
      | none => some z
      | some v => if v < z then some z else some v
    else g r2 c2

/-- One iteration of the point-population loop: guarded by
`col < width && row < height`, the point contributes to cell (row, col)
of the DSM, and of the DTM when its classification is ground (2). -/
def popStep (xMin yMax res : ℚ) (width height : ℕ) :
    Grid × Grid → LidarPoint → Grid × Grid :=
  fun gs p =>
    if colOf xMin res p < width ∧ rowOf yMax res p < height then
      (gridMaxUpd gs.1 (rowOf yMax res p) (colOf xMin res p) p.z,
       if p.classification = 2 then
         gridMaxUpd gs.2 (rowOf yMax res p) (colOf xMin res p) p.z
       else gs.2)
    else gs

/-- The point-population pass over the filtered points: (DSM, DTM), both
all-sentinel initially. -/
def pointPass (filtered : List LidarPoint) (xMin yMax res : ℚ)
    (width height : ℕ) : Grid × Grid :=
  filtered.foldl (popStep xMin yMax res width height)
    (fun _ _ => none, fun _ _ => none)

/-- Offsets scanned by the gap-filling loop
(`for dr in [-1, 0, 1] { for dc in [-1, 0, 1] { ... } }`; the (0,0)
center reads the gap cell itself, which holds the sentinel, and so never
contributes). -/
def neighborOffsets : List (ℤ × ℤ) :=
  [(-1,-1), (-1,0), (-1,1), (0,-1), (0,0), (0,1), (1,-1), (1,0), (1,1)]

/-- Minimum valid in-range neighbor value of a cell, read from the
pre-fill DTM grid; `none` models the `f64::INFINITY` seed. -/
def minNeighbor (dtm : Grid) (height width : ℕ) (r c : ℕ) : Option ℚ :=
  neighborOffsets.foldl
    (fun acc off =>
      if 0 ≤ (r : ℤ) + off.1 ∧ (r : ℤ) + off.1 < (height : ℤ) ∧
          0 ≤ (c : ℤ) + off.2 ∧ (c : ℤ) + off.2 < (width : ℤ) then
        match dtm ((r : ℤ) + off.1).toNat ((c : ℤ) + off.2).toNat with
        | some v =>
          match acc with
          | none => some v
          | some m => if v < m then some v else some m
        | none => acc
      else acc)
    none

/-- The gap-filled DTM: every in-range sentinel cell receives the minimum
valid neighbor value read from the pre-fill grid, with the 0.0 fallback
when no neighbor is valid; populated cells are copied. -/
def gapFill (dtm : Grid) (height width : ℕ) : Grid :=
  fun r c =>
    if r < height ∧ c < width then
      match dtm r c with
      | some v => some v
      | none => some ((minNeighbor dtm height width r c).getD 0)
    else dtm r c

/-- The canopy grid: `dsm - dtm_filled`, clamped to be non-negative, at
cells where both are valid; cells start at (and otherwise keep) 0.0. -/
def chmOf (dsm dtmFilled : Grid) (height width : ℕ) : ℕ → ℕ → ℚ :=
  fun r c =>
    if r < height ∧ c < width then
      match dsm r c, dtmFilled r c with
      | some a, some b => if a - b < 0 then 0 else a - b
      | _, _ => 0
    else 0

/-- Result record (struct ProcessedRasters). -/
structure ProcessedRasters where
  dsm : Grid
  dtm : Grid
  chm : ℕ → ℕ → ℚ
  width : ℕ
  height : ℕ
  transform : List ℚ

/-- The spatial bbox filter at the head of process_lidar_points. -/
def bboxFiltered (points : List LidarPoint) (xMin yMin xMax yMax : ℚ) :
    List LidarPoint :=
  points.filter (fun p => inRect xMin yMin xMax yMax p)

/-- The classification allow-list filter (`class_list.contains(...)`). -/
def classFiltered (points : List LidarPoint) (cl : Option (List ℕ)) :
    List LidarPoint :=
  match cl with
  | some classList => points.filter (fun p => classList.contains p.classification)
  | none => points

/-- Grid width: `((x_max - x_min) / resolution).ceil() as usize`. -/
def gridWidth (xMin xMax res : ℚ) : ℕ := (⌈(xMax - xMin) / res⌉).toNat

/-- Grid height: `((y_max - y_min) / resolution).ceil() as usize`. -/
def gridHeight (yMin yMax res : ℚ) : ℕ := (⌈(yMax - yMin) / res⌉).toNat

/-- Lidar::process_lidar_points: bbox filter, classification filter,
point-population pass, DTM gap filling, CHM, GDAL-style transform. -/
def process_lidar_points (points : List LidarPoint) (bbox : ℚ × ℚ × ℚ × ℚ)
    (classificationList : Option (List ℕ)) (resolution : ℚ) : ProcessedRasters :=
  match bbox with
  | (xMin, yMin, xMax, yMax) =>
    { dsm := (pointPass (classFiltered (bboxFiltered points xMin yMin xMax yMax)
        classificationList) xMin yMax resolution
        (gridWidth xMin xMax resolution) (gridHeight yMin yMax resolution)).1
      dtm := gapFill (pointPass (classFiltered (bboxFiltered points xMin yMin xMax yMax)
        classificationList) xMin yMax resolution
        (gridWidth xMin xMax resolution) (gridHeight yMin yMax resolution)).2
        (gridHeight yMin yMax resolution) (gridWidth xMin xMax resolution)
      chm := chmOf
        ((pointPass (classFiltered (bboxFiltered points xMin yMin xMax yMax)
          classificationList) xMin yMax resolution
          (gridWidth xMin xMax resolution) (gridHeight yMin yMax resolution)).1)
        (gapFill ((pointPass (classFiltered (bboxFiltered points xMin yMin xMax yMax)
          classificationList) xMin yMax resolution
          (gridWidth xMin xMax resolution) (gridHeight yMin yMax resolution)).2)
          (gridHeight yMin yMax resolution) (gridWidth xMin xMax resolution))
        (gridHeight yMin yMax resolution) (gridWidth xMin xMax resolution)
      width := gridWidth xMin xMax resolution
      height := gridHeight yMin yMax resolution
      transform := [xMin, resolution, 0, yMax, 0, -resolution] }

-- ============================================================================
-- Lidar::load_lidar_points_internal  (acquisition orchestration)
-- ============================================================================

/-- Message of the whole-run-fatal "no points" error. -/
def noPointsMsg : String := "No LiDAR points were loaded from any file"

/-- The merged points of the successful per-file outcomes, in order
(the sequential loop's `all_points.extend(points)` accumulation; errors
contribute nothing). -/
def okFlatten (results : List (Except String (List LidarPoint))) : List LidarPoint :=
  results.foldl (fun acc r => match r with
    | .ok ps => acc ++ ps
    | .error _ => acc) []

/-- The sequential (non-rayon) path of load_lidar_points_internal over the
per-file outcomes (network and decoding abstracted into one
`Except` per resolved URL): a failing file is logged and skipped
(`Err(e) => eprintln!(...)  // Continue with other files`), and the run
fails only when the merged collection is empty. -/
def load_lidar_points_seq (results : List (Except String (List LidarPoint))) :
    Except String (List LidarPoint) :=
  if (okFlatten results).isEmpty then .error noPointsMsg
  else .ok (okFlatten results)

/-- `results.into_iter().collect::<Result<Vec<_>, _>>()`: the collected
vectors, or the first error. -/
def collectExcept : List (Except String (List LidarPoint)) →
    Except String (List (List LidarPoint))
  | [] => .ok []
  | .error e :: _ => .error e
  | .ok ps :: rest => match collectExcept rest with
    | .error e => .error e
    | .ok tl => .ok (ps :: tl)

/-- The parallel (rayon) path of load_lidar_points_internal: per-file
results are collected with `collect::<Result<Vec<_>, _>>()?`, so any
file error propagates out of the function; otherwise the vectors are
flattened and the run fails only when the merged collection is empty. -/
def load_lidar_points_rayon (results : List (Except String (List LidarPoint))) :
    Except String (List LidarPoint) :=
  match collectExcept results with
  | .error e => .error e
  | .ok vecs =>
    if vecs.flatten.isEmpty then .error noPointsMsg
    else .ok vecs.flatten

-- ============================================================================
-- Lidar::load_single_copc_file  (hierarchical decode with flat fallback)
-- ============================================================================

/-- Outcome of attempting the hierarchical (COPC) reader on a byte buffer,
as observed by load_single_copc_file: reader construction can fail, the
COPC info VLR or the hierarchy can be missing, or entries are read with
the statistics tracked by read_copc_entries. -/
inductive CopcAttempt where
  | readerFailed
  | missingVlr
  | missingHierarchy
  | entries (points : List LidarPoint)
      (entriesProcessed entriesSuccess entriesFailed : ℕ)

/-- Lidar::read_as_standard_laz on a byte buffer: decode every point
record (decompression oracle `flatDecode`), then apply the spatial
filter when a bbox is supplied. -/
def read_as_standard_laz (flatDecode : β → List LidarPoint) (bytes : β)
    (filterBbox : Option (ℚ × ℚ × ℚ × ℚ)) : List LidarPoint :=
  match filterBbox with
  | some (xMin, yMin, xMax, yMax) =>
      filter_points_with_spatial_index (flatDecode bytes) xMin yMin xMax yMax
  | none => flatDecode bytes

/-- The byte buffer load_single_copc_file decodes: the cached bytes when a
cache entry exists and passes verify_cached_file, else the downloaded
remote content (the remote file is fixed; transfers return it exactly). -/
def copcBytes (remote : β) (cache : Option β) (cacheValid : β → Bool) : β :=
  match cache with
  | some c => if cacheValid c then c else remote
  | none => remote

/-- Decision core of Lidar::load_single_copc_file: on any
hierarchical-reader failure, fall back to flat decoding of the same
bytes; after reading entries, compute the failed-entry fraction
(0 when no entry was processed) and, when it exceeds 50%, drop the
collected points, delete the cache entry, RE-DOWNLOAD the file and flat
decode the freshly downloaded remote bytes; otherwise return the
collected points. -/
def load_single_copc_file (flatDecode : β → List LidarPoint)
    (copcAttempt : β → CopcAttempt) (remote : β) (cache : Option β)
    (cacheValid : β → Bool) (filterBbox : Option (ℚ × ℚ × ℚ × ℚ)) :
    List LidarPoint :=
  match copcAttempt (copcBytes remote cache cacheValid) with
  | .readerFailed =>
      read_as_standard_laz flatDecode (copcBytes remote cache cacheValid) filterBbox
  | .missingVlr =>
      read_as_standard_laz flatDecode (copcBytes remote cache cacheValid) filterBbox
  | .missingHierarchy =>
      read_as_standard_laz flatDecode (copcBytes remote cache cacheValid) filterBbox
  | .entries points entriesProcessed _ entriesFailed =>
      if (1:ℚ)/2 < (if 0 < entriesProcessed then
          (entriesFailed : ℚ) / (entriesProcessed : ℚ) else 0) then
        read_as_standard_laz flatDecode remote filterBbox
      else points

-- ============================================================================
-- Transfer layer: download_partial_laz / download_laz_via_range
-- ============================================================================

/-- download_partial_laz distilled to its status handling: a 200 answer
(server ignored Range) is an error so the caller can fall back to a full
GET; anything other than 206 Partial Content is an error; 206 yields the
body. -/
def download_partial_laz (status : ℕ) (body : List ℕ) : Except String (List ℕ) :=
  if status = 200 then
    .error "Server returned 200 (Range not supported), use full GET"
  else if status ≠ 206 then .error "Expected 206 Partial Content"
  else .ok body

/-- A Range request `bytes=start-end` against a fixed remote file on a
server that honors ranges: the file bytes from `start` through `endIdx`
inclusive (fewer when the file ends sooner). -/
def rangeGet (file : List ℕ) (start endIdx : ℕ) : List ℕ :=
  (file.drop start).take (endIdx + 1 - start)

/-- The LAS signature bytes "LASF". -/
def lasSignature : List ℕ := [76, 65, 83, 70]

/-- parse_las_header_from_slice, reduced to the offset this caller uses:
needs at least 111 bytes and the "LASF" signature, and reads
offset_to_point_data as the little-endian u32 at bytes 94..98 (the point
count at 107..111 is parsed too but never used by the caller). -/
def parse_las_header_offset (buf : List ℕ) : Except String ℕ :=
  if buf.length < 111 then .error "LAS header buffer too short"
  else if buf.take 4 ≠ lasSignature then .error "Invalid LAS signature (expected LASF)"
  else .ok (buf.getD 94 0 + 256 * (buf.getD 95 0 + 256 * (buf.getD 96 0 + 256 * buf.getD 97 0)))

/-- Lidar::download_laz_via_range against a Range-honoring server holding
a fixed remote file whose HEAD Content-Length is exact: fetch bytes
0..=4095, parse the header offset, reject `offset >= content_length`,
extend the header buffer when the offset lies beyond 4096, fetch the
point data from the offset through the end, and concatenate. -/
def download_laz_via_range (file : List ℕ) : Except String (List ℕ) :=
  match parse_las_header_offset (rangeGet file 0 4095) with
  | .error e => .error e
  | .ok offset =>
    if file.length ≤ offset then
      .error "Invalid LAZ: offset_to_point_data >= content_length"
    else
      .ok ((if offset ≤ 4096 then (rangeGet file 0 4095).take offset
            else rangeGet file 0 4095 ++ rangeGet file 4096 (offset - 1)) ++
        rangeGet file offset (file.length - 1))

-- ============================================================================
-- Characterization of the gap-filling minimum
-- ============================================================================

/-- The valid (in-range, non-sentinel) values read by the gap-filling
neighbor scan, in scan order. -/
def validNeighborVals (dtm : Grid) (height width : ℕ) (r c : ℕ) : List ℚ :=
  neighborOffsets.filterMap (fun off =>
    if 0 ≤ (r : ℤ) + off.1 ∧ (r : ℤ) + off.1 < (height : ℤ) ∧
        0 ≤ (c : ℤ) + off.2 ∧ (c : ℤ) + off.2 < (width : ℤ) then
      dtm ((r : ℤ) + off.1).toNat ((c : ℤ) + off.2).toNat
    else none)

/-- One running-minimum step (`if val < min_neighbor { min_neighbor = val }`
with `none` as the infinite seed). -/
def minStep (a : Option ℚ) (v : ℚ) : Option ℚ :=
  match a with
  | none => some v
  | some m => if v < m then some v else some m

theorem minNeighbor_foldl_general (dtm : Grid) (height width r c : ℕ) :
    ∀ (offs : List (ℤ × ℤ)) (a : Option ℚ),
      offs.foldl
        (fun acc off =>
          if 0 ≤ (r : ℤ) + off.1 ∧ (r : ℤ) + off.1 < (height : ℤ) ∧
              0 ≤ (c : ℤ) + off.2 ∧ (c : ℤ) + off.2 < (width : ℤ) then
            match dtm ((r : ℤ) + off.1).toNat ((c : ℤ) + off.2).toNat with
            | some v =>
              match acc with
              | none => some v
              | some m => if v < m then some v else some m
            | none => acc
          else acc) a
      = ((offs.filterMap (fun off =>
          if 0 ≤ (r : ℤ) + off.1 ∧ (r : ℤ) + off.1 < (height : ℤ) ∧
              0 ≤ (c : ℤ) + off.2 ∧ (c : ℤ) + off.2 < (width : ℤ) then
            dtm ((r : ℤ) + off.1).toNat ((c : ℤ) + off.2).toNat
          else none)).foldl minStep a) := by
  intro offs
  induction offs with
  | nil => intro a; rfl
  | cons hd tl ih =>
    intro a
    rw [List.foldl_cons, List.filterMap_cons]
    by_cases hcond : 0 ≤ (r : ℤ) + hd.1 ∧ (r : ℤ) + hd.1 < (height : ℤ) ∧
        0 ≤ (c : ℤ) + hd.2 ∧ (c : ℤ) + hd.2 < (width : ℤ)
    · simp only [if_pos hcond]
      cases hv : dtm ((r : ℤ) + hd.1).toNat ((c : ℤ) + hd.2).toNat with
      | none =>
        simp only [hv]
        exact ih a
      | some v =>
        simp only [hv, List.foldl_cons]
        exact ih (minStep a v)
    · simp only [if_neg hcond]
      exact ih a

theorem minNeighbor_eq_foldl (dtm : Grid) (height width r c : ℕ) :
    minNeighbor dtm height width r c =
      (validNeighborVals dtm height width r c).foldl minStep none :=
  minNeighbor_foldl_general dtm height width r c neighborOffsets none

theorem minStep_ne_none (a : Option ℚ) (v : ℚ) : minStep a v ≠ none := by
  cases a with
  | none => simp [minStep]
  | some m =>
    simp only [minStep]
    split <;> simp

theorem foldl_minStep_eq_none (l : List ℚ) :
    ∀ acc : Option ℚ, (l.foldl minStep acc = none ↔ l = [] ∧ acc = none) := by
  induction l with
  | nil => intro acc; simp
  | cons hd tl ih =>
    intro acc
    rw [List.foldl_cons]
    constructor
    · intro h
      rcases (ih (minStep acc hd)).mp h with ⟨_, hstep⟩
      exact absurd hstep (minStep_ne_none acc hd)
    · rintro ⟨h, _⟩
      cases h

theorem foldl_minStep_min (l : List ℚ) :
    ∀ (acc : Option ℚ) (m : ℚ), l.foldl minStep acc = some m →
      (m ∈ l ∨ acc = some m) ∧ (∀ v ∈ l, m ≤ v) ∧ (∀ u, acc = some u → m ≤ u) := by
  induction l with
  | nil =>
    intro acc m h
    simp only [List.foldl_nil] at h
    refine ⟨Or.inr h, fun v hv => absurd hv (List.not_mem_nil v), fun u hu => ?_⟩
    rw [h] at hu
    cases hu
    exact le_refl m
  | cons hd tl ih =>
    intro acc m h
    rw [List.foldl_cons] at h
    rcases ih (minStep acc hd) m h with ⟨hmem, hall, hacc⟩
    cases acc with
    | none =>
      have hstep : minStep none hd = some hd := rfl
      have hmhd : m ≤ hd := hacc hd hstep
      refine ⟨?_, ?_, fun u hu => by cases hu⟩
      · rcases hmem with hm | hm
        · exact Or.inl (List.mem_cons_of_mem _ hm)
        · rw [hstep] at hm
          cases hm
          exact Or.inl (List.mem_cons_self _ _)
      · intro v hv
        rcases List.mem_cons.mp hv with hv | hv
        · rw [hv]; exact hmhd
        · exact hall v hv
    | some u0 =>
      have hstep : minStep (some u0) hd = if hd < u0 then some hd else some u0 := rfl
      by_cases hlt : hd < u0
      · rw [if_pos hlt] at hstep
        have hmhd : m ≤ hd := hacc hd hstep
        refine ⟨?_, ?_, fun u hu => ?_⟩
        · rcases hmem with hm | hm
          · exact Or.inl (List.mem_cons_of_mem _ hm)
          · rw [hstep] at hm
            cases hm
            exact Or.inl (List.mem_cons_self _ _)
        · intro v hv
          rcases List.mem_cons.mp hv with hv | hv
          · rw [hv]; exact hmhd
          · exact hall v hv
        · cases hu
          exact le_trans hmhd (le_of_lt hlt)
      · rw [if_neg hlt] at hstep
        have hmu0 : m ≤ u0 := hacc u0 hstep
        refine ⟨?_, ?_, fun u hu => ?_⟩
        · rcases hmem with hm | hm
          · exact Or.inl (List.mem_cons_of_mem _ hm)
          · rw [hstep] at hm
            cases hm
            exact Or.inr rfl
        · intro v hv
          rcases List.mem_cons.mp hv with hv | hv
          · rw [hv]
            exact le_trans hmu0 (le_of_not_lt hlt)
          · exact hall v hv
        · cases hu
          exact hmu0

theorem minNeighbor_none_iff (dtm : Grid) (height width r c : ℕ) :
    minNeighbor dtm height width r c = none ↔
      validNeighborVals dtm height width r c = [] := by
  rw [minNeighbor_eq_foldl]
  rw [foldl_minStep_eq_none]
  simp

theorem minNeighbor_some_min (dtm : Grid) (height width r c : ℕ) (m : ℚ)
    (h : minNeighbor dtm height width r c = some m) :
    m ∈ validNeighborVals dtm height width r c ∧
      ∀ v ∈ validNeighborVals dtm height width r c, m ≤ v := by
  rw [minNeighbor_eq_foldl] at h
  rcases foldl_minStep_min _ none m h with ⟨hmem, hall, _⟩
  rcases hmem with hm | hm
  · exact ⟨hm, hall⟩
  · cases hm

-- ============================================================================
-- Structural views of quadtree nodes used by the C7 statement
-- ============================================================================

/-- Direct (own) point indices of a node, children excluded. -/
def QNode.directPoints : QNode → List ℕ
  | .leaf _ l _ => l
  | .node _ l _ _ _ _ _ => l

/-- Whether the node is a leaf (its children slot array is absent). -/
def QNode.isLeafNode : QNode → Bool
  | .leaf _ _ _ => true
  | .node _ _ _ _ _ _ _ => false

/-- A property holding at every node of a subtree. -/
def EveryNode (P : QNode → Prop) : QNode → Prop
  | .leaf b l d => P (.leaf b l d)
  | .node b l d c0 c1 c2 c3 =>
      P (.node b l d c0 c1 c2 c3) ∧
      EveryNode P c0 ∧ EveryNode P c1 ∧ EveryNode P c2 ∧ EveryNode P c3

theorem Good_everyNode (pts : List LidarPoint) (n : QNode) (hg : Good pts n) :
    EveryNode (fun m =>
      (∀ i ∈ m.allIdx,
        containsXY m.bounds (pts.getD i default).x (pts.getD i default).y) ∧
      (m.isLeafNode = false → m.directPoints = []) ∧
      (m.isLeafNode = true → m.depth < maxDepth →
        m.directPoints.length ≤ maxPointsPerNode)) n := by
  induction n with
  | leaf b l d =>
    simp only [EveryNode]
    refine ⟨fun i hi => Good_allIdx_contains pts _ hg i hi,
      fun h => ?_, fun _ hd => hg.2.2.2.2 hd⟩
    simp [QNode.isLeafNode] at h
  | node b l d c0 c1 c2 c3 ih0 ih1 ih2 ih3 =>
    have hgw := hg
    obtain ⟨_, _, _, hdpts, _, _, _, _, _, _, _, _, hg0, hg1, hg2, hg3⟩ := hg
    simp only [EveryNode]
    refine ⟨⟨fun i hi => Good_allIdx_contains pts _ hgw i hi,
      fun _ => hdpts, fun h => ?_⟩,
      ih0 hg0, ih1 hg1, ih2 hg2, ih3 hg3⟩
    simp [QNode.isLeafNode] at h

theorem insertF_keeps_node (pts : List LidarPoint) :
    ∀ fuel (n : QNode) i, n.isLeafNode = false →
      (insertF pts fuel n i).isLeafNode = false := by
  intro fuel
  induction fuel with
  | zero => exact fun n i h => h
  | succ fuel ih =>
    intro n i h
    cases n with
    | leaf b l d => cases h
    | node b dpts d c0 c1 c2 c3 =>
      simp only [insertF]
      split
      · exact h
      · split
        · rfl
        · split
          · rfl
          · split
            · rfl
            · rfl

theorem foldl_insertF_keeps_node (pts : List LidarPoint) (fuel : ℕ) :
    ∀ (l : List ℕ) (m : QNode), m.isLeafNode = false →
      ((l.foldl (fun m j => insertF pts fuel m j) m).isLeafNode = false) := by
  intro l
  induction l with
  | nil => exact fun m h => h
  | cons hd tl ih =>
    intro m h
    rw [List.foldl_cons]
    exact ih _ (insertF_keeps_node pts fuel m hd h)

/-- C3: for every list of points and every query rectangle, the raw
candidate output of both SpatialGridIndex::query_bbox (for any positive
cell size, in particular the ≥ 10 one the filter chooses) and
QuadtreeSpatialIndex::query_bbox contains every indexed point whose x
lies in [x_min, x_max] and whose y lies in [y_min, y_max] (no false
negatives); consequently filter_points_with_spatial_index returns
exactly the points inside the rectangle on each of its three paths. -/
theorem claim_C3_no_false_negatives :
    (∀ (points : List LidarPoint) (cs : ℚ), 0 < cs →
      ∀ (i : ℕ) (p : LidarPoint), points[i]? = some p →
      ∀ xMin yMin xMax yMax : ℚ,
        xMin ≤ p.x → p.x ≤ xMax → yMin ≤ p.y → p.y ≤ yMax →
        i ∈ (SpatialGridIndex.build_from_points points cs).query_bbox
          xMin yMin xMax yMax) ∧
    (∀ (points : List LidarPoint) (i : ℕ) (p : LidarPoint), points[i]? = some p →
      ∀ xMin yMin xMax yMax : ℚ,
        xMin ≤ p.x → p.x ≤ xMax → yMin ≤ p.y → p.y ≤ yMax →
        i ∈ quadtreeQueryBbox (quadtreeBuild points) xMin yMin xMax yMax) ∧
    (∀ (points : List LidarPoint) (xMin yMin xMax yMax : ℚ) (q : LidarPoint),
      q ∈ filter_points_with_spatial_index points xMin yMin xMax yMax ↔
        q ∈ points ∧ (xMin ≤ q.x ∧ q.x ≤ xMax ∧ yMin ≤ q.y ∧ q.y ≤ yMax)) := by
  refine ⟨?_, ?_, ?_⟩
  · intro points cs hcs i p hip xMin yMin xMax yMax hx1 hx2 hy1 hy2
    exact grid_build_query_complete points cs hcs i p hip xMin yMin xMax yMax
      hx1 hx2 hy1 hy2
  · intro points i p hip xMin yMin xMax yMax hx1 hx2 hy1 hy2
    rcases quadtreeBuild_spec points with ⟨hg, _, hidx⟩
    have hlt : i < points.length := (List.getElem?_eq_some_iff.mp hip).1
    have hgd : points.getD i default = p := by
      rw [List.getD_eq_getElem?_getD, hip]
      rfl
    exact queryBbox_complete points _ hg i ((hidx i).mpr hlt) xMin yMin xMax yMax
      (by rw [hgd]; exact hx1) (by rw [hgd]; exact hx2)
      (by rw [hgd]; exact hy1) (by rw [hgd]; exact hy2)
  · intro points xMin yMin xMax yMax q
    rw [filter_points_exact points xMin yMin xMax yMax q, inRect_iff]

/-- Witness for C3 at a one-point list and a rectangle containing it. -/
theorem claim_C3_witness :
    0 ∈ (SpatialGridIndex.build_from_points [⟨1, 2, 3, 2⟩] 10).query_bbox 0 0 5 5 ∧
    0 ∈ quadtreeQueryBbox (quadtreeBuild [⟨1, 2, 3, 2⟩]) 0 0 5 5 ∧
    ((⟨1, 2, 3, 2⟩ : LidarPoint) ∈
        filter_points_with_spatial_index [⟨1, 2, 3, 2⟩] 0 0 5 5 ↔
      (⟨1, 2, 3, 2⟩ : LidarPoint) ∈ [(⟨1, 2, 3, 2⟩ : LidarPoint)] ∧
        ((0:ℚ) ≤ 1 ∧ (1:ℚ) ≤ 5 ∧ (0:ℚ) ≤ 2 ∧ (2:ℚ) ≤ 5)) :=
  ⟨claim_C3_no_false_negatives.1 [⟨1, 2, 3, 2⟩] 10 (by decide) 0 ⟨1, 2, 3, 2⟩ rfl
      0 0 5 5 (by decide) (by decide) (by decide) (by decide),
   claim_C3_no_false_negatives.2.1 [⟨1, 2, 3, 2⟩] 0 ⟨1, 2, 3, 2⟩ rfl
      0 0 5 5 (by decide) (by decide) (by decide) (by decide),
   claim_C3_no_false_negatives.2.2 [⟨1, 2, 3, 2⟩] 0 0 5 5 ⟨1, 2, 3, 2⟩⟩

/-- C7: QuadtreeSpatialIndex::build maintains the tree invariants: the
root rectangle is the padded data rectangle, computed once and never
changed by insertion; every stored point index lies within its node's XY
rectangle (hereditarily); an internal (split) node holds no direct
points; every leaf below the maximum depth (12) holds at most 1000
points; a leaf that receives an overflowing insertion below the maximum
depth turns into an internal node at that insertion (the split is at
insertion time); and the built tree stores exactly the input indices. -/
theorem claim_C7_quadtree_invariants (pts : List LidarPoint) :
    (quadtreeBuild pts).bounds = rootBounds pts ∧
    (∀ fuel n i, (insertF pts fuel n i).bounds = n.bounds ∧
      (insertF pts fuel n i).depth = n.depth) ∧
    EveryNode (fun m =>
      (∀ i ∈ m.allIdx,
        containsXY m.bounds (pts.getD i default).x (pts.getD i default).y) ∧
      (m.isLeafNode = false → m.directPoints = []) ∧
      (m.isLeafNode = true → m.depth < maxDepth →
        m.directPoints.length ≤ maxPointsPerNode)) (quadtreeBuild pts) ∧
    (∀ (b : Bounds3) (l : List ℕ) (d i fuel : ℕ),
      containsXY b (pts.getD i default).x (pts.getD i default).y →
      maxPointsPerNode < (l ++ [i]).length → d < maxDepth →
      (insertF pts (fuel + 1) (.leaf b l d) i).isLeafNode = false) ∧
    (∀ j, j ∈ (quadtreeBuild pts).allIdx ↔ j < pts.length) := by
  rcases quadtreeBuild_spec pts with ⟨hg, hb, hidx⟩
  refine ⟨hb, ?_, Good_everyNode pts _ hg, ?_, hidx⟩
  · intro fuel n i
    rcases insertF_preserves pts fuel n i with ⟨h1, h2, _⟩
    exact ⟨h1, h2⟩
  · intro b l d i fuel hc hover hd
    simp only [insertF, QNode.bounds]
    rw [if_neg (not_not_intro hc), if_pos ⟨hover, hd⟩]
    exact foldl_insertF_keeps_node pts fuel (l ++ [i]) _ rfl

/-- Witness for C7 at a one-point list: the root rectangle is the padded
data rectangle, and an insertion leaves it unchanged. -/
theorem claim_C7_witness :
    (quadtreeBuild [⟨1, 2, 3, 2⟩]).bounds = rootBounds [⟨1, 2, 3, 2⟩] ∧
    (insertF [⟨1, 2, 3, 2⟩] 64 (quadtreeBuild [⟨1, 2, 3, 2⟩]) 0).bounds =
      rootBounds [⟨1, 2, 3, 2⟩] :=
  ⟨(claim_C7_quadtree_invariants [⟨1, 2, 3, 2⟩]).1,
   by
    rw [((claim_C7_quadtree_invariants [⟨1, 2, 3, 2⟩]).2.1 64
      (quadtreeBuild [⟨1, 2, 3, 2⟩]) 0).1]
    exact (claim_C7_quadtree_invariants [⟨1, 2, 3, 2⟩]).1⟩

/-- The pre-fill DTM grid inside process_lidar_points (the state of the
terrain grid after the point pass, before gap filling). -/
def preDtmOf (points : List LidarPoint) (xMin yMin xMax yMax : ℚ)
    (cl : Option (List ℕ)) (res : ℚ) : Grid :=
  (pointPass (classFiltered (bboxFiltered points xMin yMin xMax yMax) cl)
    xMin yMax res (gridWidth xMin xMax res) (gridHeight yMin yMax res)).2

/-- C4: in process_lidar_points, every terrain cell still holding the
no-data sentinel after the point pass is assigned the minimum valid
value among its neighbors as read from the pre-fill grid (a single
pass), and 0 when no neighbor holds a valid value; in particular a gap
cell whose only valid neighbors hold 10, 12, 11, 9 is filled with 9. -/
theorem claim_C4_gap_fill :
    (∀ (points : List LidarPoint) (xMin yMin xMax yMax : ℚ) (cl : Option (List ℕ))
      (res : ℚ) (r c : ℕ),
      r < gridHeight yMin yMax res → c < gridWidth xMin xMax res →
      preDtmOf points xMin yMin xMax yMax cl res r c = none →
      ((∃ m, (process_lidar_points points (xMin, yMin, xMax, yMax) cl res).dtm r c
            = some m ∧
          m ∈ validNeighborVals (preDtmOf points xMin yMin xMax yMax cl res)
            (gridHeight yMin yMax res) (gridWidth xMin xMax res) r c ∧
          ∀ v ∈ validNeighborVals (preDtmOf points xMin yMin xMax yMax cl res)
            (gridHeight yMin yMax res) (gridWidth xMin xMax res) r c, m ≤ v) ∨
        (validNeighborVals (preDtmOf points xMin yMin xMax yMax cl res)
            (gridHeight yMin yMax res) (gridWidth xMin xMax res) r c = [] ∧
          (process_lidar_points points (xMin, yMin, xMax, yMax) cl res).dtm r c
            = some 0))) ∧
    (∀ (dtm : Grid) (h w r c : ℕ), r < h → c < w → dtm r c = none →
      validNeighborVals dtm h w r c = [10, 12, 11, 9] →
      gapFill dtm h w r c = some 9) := by
  constructor
  · intro points xMin yMin xMax yMax cl res r c hr hc hnone
    have hdtm : (process_lidar_points points (xMin, yMin, xMax, yMax) cl res).dtm
        = gapFill (preDtmOf points xMin yMin xMax yMax cl res)
          (gridHeight yMin yMax res) (gridWidth xMin xMax res) := rfl
    have hval : gapFill (preDtmOf points xMin yMin xMax yMax cl res)
        (gridHeight yMin yMax res) (gridWidth xMin xMax res) r c
        = some ((minNeighbor (preDtmOf points xMin yMin xMax yMax cl res)
          (gridHeight yMin yMax res) (gridWidth xMin xMax res) r c).getD 0) := by
      unfold gapFill
      rw [if_pos ⟨hr, hc⟩, hnone]
    rw [hdtm, hval]
    cases hmn : minNeighbor (preDtmOf points xMin yMin xMax yMax cl res)
        (gridHeight yMin yMax res) (gridWidth xMin xMax res) r c with
    | none =>
      right
      exact ⟨(minNeighbor_none_iff _ _ _ _ _).mp hmn, rfl⟩
    | some m =>
      left
      rcases minNeighbor_some_min _ _ _ _ _ m hmn with ⟨h1, h2⟩
      exact ⟨m, rfl, h1, h2⟩
  · intro dtm h w r c hr hc hnone hvals
    unfold gapFill
    rw [if_pos ⟨hr, hc⟩, hnone]
    show some ((minNeighbor dtm h w r c).getD 0) = some 9
    rw [minNeighbor_eq_foldl dtm h w r c, hvals]
    decide

/-- Pre-fill DTM grid for the C4 scenario: a central gap at (1, 1) whose
only valid neighbors hold 10, 12, 11, 9 (in scan order). -/
def dtmScenario : Grid := fun r c =>
  if r = 0 ∧ c = 1 then some 10
  else if r = 1 ∧ c = 0 then some 12
  else if r = 1 ∧ c = 2 then some 11
  else if r = 2 ∧ c = 1 then some 9
  else none

/-- Witness for C4: with no points at all, a gap cell falls back to 0;
in the spec scenario with valid neighbors 10, 12, 11, 9 the filled value
is the minimum 9. -/
theorem claim_C4_witness :
    (process_lidar_points [] ((0:ℚ), 0, 3, 3) none 1).dtm 1 1 = some 0 ∧
    gapFill dtmScenario 3 3 1 1 = some 9 := by
  constructor
  · have h1 : (1:ℕ) < gridHeight 0 3 1 := by
      rw [gridHeight, show ((3:ℚ) - 0) / 1 = 3 by norm_num]
      decide
    have h2 : (1:ℕ) < gridWidth 0 3 1 := by
      rw [gridWidth, show ((3:ℚ) - 0) / 1 = 3 by norm_num]
      decide
    have h3 : preDtmOf [] 0 0 3 3 none 1 1 1 = none := rfl
    rcases claim_C4_gap_fill.1 [] 0 0 3 3 none 1 1 1 h1 h2 h3 with
      ⟨m, _, hmem, _⟩ | ⟨_, h0⟩
    · exfalso
      have hempty : validNeighborVals (preDtmOf [] 0 0 3 3 none 1)
          (gridHeight 0 3 1) (gridWidth 0 3 1) 1 1 = [] := by
        simp [validNeighborVals, preDtmOf, pointPass, classFiltered, bboxFiltered,
          neighborOffsets, ite_self]
      rw [hempty] at hmem
      cases hmem
    · exact h0
  · exact claim_C4_gap_fill.2 dtmScenario 3 3 1 1 (by decide) (by decide)
      (by decide) (by decide)

/-- C5: process_lidar_points produces grids of width
ceil((xmax-xmin)/resolution) and height ceil((ymax-ymin)/resolution);
the population step touches only the cell
col = floor((x-xmin)/res), row = floor((ymax-y)/res) of its point, where
it applies the max rule; and the row index grows as y falls. -/
theorem claim_C5_grid_dims_cell_assignment :
    ∀ (points : List LidarPoint) (xMin yMin xMax yMax : ℚ) (cl : Option (List ℕ))
      (res : ℚ), xMin < xMax → yMin < yMax → 0 < res →
      (process_lidar_points points (xMin, yMin, xMax, yMax) cl res).width =
        (⌈(xMax - xMin) / res⌉).toNat ∧
      (process_lidar_points points (xMin, yMin, xMax, yMax) cl res).height =
        (⌈(yMax - yMin) / res⌉).toNat ∧
      (∀ (gs : Grid × Grid) (p : LidarPoint) (r c : ℕ),
        ¬(r = rowOf yMax res p ∧ c = colOf xMin res p) →
        (popStep xMin yMax res (gridWidth xMin xMax res) (gridHeight yMin yMax res)
            gs p).1 r c = gs.1 r c ∧
        (popStep xMin yMax res (gridWidth xMin xMax res) (gridHeight yMin yMax res)
            gs p).2 r c = gs.2 r c) ∧
      (∀ (gs : Grid × Grid) (p : LidarPoint),
        colOf xMin res p < gridWidth xMin xMax res →
        rowOf yMax res p < gridHeight yMin yMax res →
        (popStep xMin yMax res (gridWidth xMin xMax res) (gridHeight yMin yMax res)
            gs p).1 (rowOf yMax res p) (colOf xMin res p)
          = (match gs.1 (rowOf yMax res p) (colOf xMin res p) with
             | none => some p.z
             | some v => if v < p.z then some p.z else some v)) ∧
      (∀ p q : LidarPoint, p.y ≤ q.y → rowOf yMax res q ≤ rowOf yMax res p) := by
  intro points xMin yMin xMax yMax cl res _ _ hres
  refine ⟨rfl, rfl, ?_, ?_, ?_⟩
  · intro gs p r c hne
    unfold popStep
    by_cases hg : colOf xMin res p < gridWidth xMin xMax res ∧
        rowOf yMax res p < gridHeight yMin yMax res
    · rw [if_pos hg]
      constructor
      · show gridMaxUpd gs.1 (rowOf yMax res p) (colOf xMin res p) p.z r c = gs.1 r c
        unfold gridMaxUpd
        rw [if_neg hne]
      · by_cases hcl : p.classification = 2
        · rw [if_pos hcl]
          show gridMaxUpd gs.2 (rowOf yMax res p) (colOf xMin res p) p.z r c = gs.2 r c
          unfold gridMaxUpd
          rw [if_neg hne]
        · rw [if_neg hcl]
    · rw [if_neg hg]
      exact ⟨rfl, rfl⟩
  · intro gs p hcw hrh
    unfold popStep
    rw [if_pos ⟨hcw, hrh⟩]
    show gridMaxUpd gs.1 (rowOf yMax res p) (colOf xMin res p) p.z
      (rowOf yMax res p) (colOf xMin res p) = _
    unfold gridMaxUpd
    rw [if_pos ⟨rfl, rfl⟩]
  · intro p q hy
    unfold rowOf
    apply Int.toNat_le_toNat
    apply Int.floor_le_floor
    gcongr

/-- Witness for C5 at the bbox (0,0,3,3) and resolution 1. -/
theorem claim_C5_witness :
    (process_lidar_points [] ((0:ℚ), 0, 3, 3) none 1).width =
      (⌈(((3:ℚ) - 0) / 1)⌉).toNat :=
  (claim_C5_grid_dims_cell_assignment [] 0 0 3 3 none 1 (by decide) (by decide)
    (by decide)).1

/-- C6: in the grids returned by process_lidar_points, wherever both the
surface and (filled) terrain values are valid the canopy value is their
difference clamped to be non-negative (hence at least 0), and at every
other in-range cell it is 0. -/
theorem claim_C6_chm :
    ∀ (points : List LidarPoint) (xMin yMin xMax yMax : ℚ) (cl : Option (List ℕ))
      (res : ℚ) (r c : ℕ),
      r < gridHeight yMin yMax res → c < gridWidth xMin xMax res →
      (∀ a b : ℚ,
        (process_lidar_points points (xMin, yMin, xMax, yMax) cl res).dsm r c = some a →
        (process_lidar_points points (xMin, yMin, xMax, yMax) cl res).dtm r c = some b →
        (process_lidar_points points (xMin, yMin, xMax, yMax) cl res).chm r c
            = max (a - b) 0 ∧
        0 ≤ (process_lidar_points points (xMin, yMin, xMax, yMax) cl res).chm r c) ∧
      (((process_lidar_points points (xMin, yMin, xMax, yMax) cl res).dsm r c = none ∨
        (process_lidar_points points (xMin, yMin, xMax, yMax) cl res).dtm r c = none) →
        (process_lidar_points points (xMin, yMin, xMax, yMax) cl res).chm r c = 0) := by
  intro points xMin yMin xMax yMax cl res r c hr hc
  have hchm : (process_lidar_points points (xMin, yMin, xMax, yMax) cl res).chm
      = chmOf (process_lidar_points points (xMin, yMin, xMax, yMax) cl res).dsm
        (process_lidar_points points (xMin, yMin, xMax, yMax) cl res).dtm
        (gridHeight yMin yMax res) (gridWidth xMin xMax res) := rfl
  constructor
  · intro a b hdsm hdtm
    rw [hchm]
    unfold chmOf
    rw [if_pos ⟨hr, hc⟩, hdsm, hdtm]
    show (if a - b < 0 then 0 else a - b) = max (a - b) 0 ∧
      (0:ℚ) ≤ (if a - b < 0 then 0 else a - b)
    by_cases hab : a - b < 0
    · rw [if_pos hab]
      exact ⟨(max_eq_right (le_of_lt hab)).symm, le_refl 0⟩
    · rw [if_neg hab]
      exact ⟨(max_eq_left (le_of_not_lt hab)).symm, le_of_not_lt hab⟩
  · intro hnone
    rw [hchm]
    unfold chmOf
    rw [if_pos ⟨hr, hc⟩]
    rcases hnone with hnone | hnone
    · rw [hnone]
    · rw [hnone]
      cases (process_lidar_points points (xMin, yMin, xMax, yMax) cl res).dsm r c <;> rfl

/-- Witness for C6: with no points the surface cell is the sentinel, so
the canopy cell is 0. -/
theorem claim_C6_witness :
    (process_lidar_points [] ((0:ℚ), 0, 3, 3) none 1).chm 0 0 = 0 := by
  have h1 : (0:ℕ) < gridHeight 0 3 1 := by
    rw [gridHeight, show ((3:ℚ) - 0) / 1 = 3 by norm_num]
    decide
  have h2 : (0:ℕ) < gridWidth 0 3 1 := by
    rw [gridWidth, show ((3:ℚ) - 0) / 1 = 3 by norm_num]
    decide
  exact (claim_C6_chm [] 0 0 3 3 none 1 0 0 h1 h2).2 (Or.inl rfl)

/-- C9: the population pass never writes outside the grid (out-of-range
cells keep the sentinel); when the bbox x-extent is an exact multiple of
the resolution, a point at x = x_max inside the bbox maps to
col = width (and symmetrically a point at y = y_min maps to
row = height), so the `col < width && row < height` guard silently drops
it and it contributes to no cell of any grid. -/
theorem claim_C9_boundary_drop :
    (∀ (filtered : List LidarPoint) (xMin yMax res : ℚ) (w h r c : ℕ),
      w ≤ c ∨ h ≤ r →
      (pointPass filtered xMin yMax res w h).1 r c = none ∧
      (pointPass filtered xMin yMax res w h).2 r c = none) ∧
    (∀ (xMin xMax res : ℚ) (k : ℕ) (p : LidarPoint), 0 < res →
      xMax - xMin = (k : ℚ) * res → p.x = xMax →
      colOf xMin res p = k ∧ gridWidth xMin xMax res = k) ∧
    (∀ (yMin yMax res : ℚ) (k : ℕ) (p : LidarPoint), 0 < res →
      yMax - yMin = (k : ℚ) * res → p.y = yMin →
      rowOf yMax res p = k ∧ gridHeight yMin yMax res = k) ∧
    (∀ (xMin xMax yMax res : ℚ) (k : ℕ) (p : LidarPoint) (h : ℕ) (gs : Grid × Grid),
      0 < res → xMax - xMin = (k : ℚ) * res → p.x = xMax →
      popStep xMin yMax res (gridWidth xMin xMax res) h gs p = gs) := by
  have hcol : ∀ (xMin xMax res : ℚ) (k : ℕ) (p : LidarPoint), 0 < res →
      xMax - xMin = (k : ℚ) * res → p.x = xMax →
      colOf xMin res p = k ∧ gridWidth xMin xMax res = k := by
    intro xMin xMax res k p hres hk hx
    have hdiv : (p.x - xMin) / res = (k : ℚ) := by
      rw [hx, hk]
      exact mul_div_cancel_right₀ _ (ne_of_gt hres)
    constructor
    · unfold colOf
      rw [hdiv, Int.floor_natCast, Int.toNat_natCast]
    · unfold gridWidth
      rw [show (xMax - xMin) / res = (k : ℚ) by
        rw [hk]; exact mul_div_cancel_right₀ _ (ne_of_gt hres)]
      rw [Int.ceil_natCast, Int.toNat_natCast]
  refine ⟨?_, hcol, ?_, ?_⟩
  · intro filtered xMin yMax res w h r c hout
    have hstep : ∀ (gs : Grid × Grid) (p : LidarPoint),
        (popStep xMin yMax res w h gs p).1 r c = gs.1 r c ∧
        (popStep xMin yMax res w h gs p).2 r c = gs.2 r c := by
      intro gs p
      unfold popStep
      by_cases hg : colOf xMin res p < w ∧ rowOf yMax res p < h
      · have hne : ¬(r = rowOf yMax res p ∧ c = colOf xMin res p) := by
          rintro ⟨hr, hc⟩
          rcases hout with hout | hout
          · omega
          · omega
        rw [if_pos hg]
        constructor
        · show gridMaxUpd gs.1 (rowOf yMax res p) (colOf xMin res p) p.z r c = gs.1 r c
          unfold gridMaxUpd
          rw [if_neg hne]
        · by_cases hcl : p.classification = 2
          · rw [if_pos hcl]
            show gridMaxUpd gs.2 (rowOf yMax res p) (colOf xMin res p) p.z r c
              = gs.2 r c
            unfold gridMaxUpd
            rw [if_neg hne]
          · rw [if_neg hcl]
      · rw [if_neg hg]
        exact ⟨rfl, rfl⟩
    unfold pointPass
    generalize hinit : ((fun _ _ => none, fun _ _ => none) : Grid × Grid) = init
    have hinit1 : init.1 r c = none := by rw [← hinit]
    have hinit2 : init.2 r c = none := by rw [← hinit]
    clear hinit
    induction filtered generalizing init with
    | nil => exact ⟨hinit1, hinit2⟩
    | cons hd tl ih =>
      rw [List.foldl_cons]
      refine ih _ ?_ ?_
      · rw [(hstep init hd).1]
        exact hinit1
      · rw [(hstep init hd).2]
        exact hinit2
  · intro yMin yMax res k p hres hk hy
    have hdiv : (yMax - p.y) / res = (k : ℚ) := by
      rw [hy, hk]
      exact mul_div_cancel_right₀ _ (ne_of_gt hres)
    constructor
    · unfold rowOf
      rw [hdiv, Int.floor_natCast, Int.toNat_natCast]
    · unfold gridHeight
      rw [show (yMax - yMin) / res = (k : ℚ) by
        rw [hk]; exact mul_div_cancel_right₀ _ (ne_of_gt hres)]
      rw [Int.ceil_natCast, Int.toNat_natCast]
  · intro xMin xMax yMax res k p h gs hres hk hx
    rcases hcol xMin xMax res k p hres hk hx with ⟨hc, hw⟩
    unfold popStep
    rw [if_neg]
    rintro ⟨hlt, _⟩
    rw [hc, hw] at hlt
    exact lt_irrefl k hlt

/-- Witness for C9: bbox (0,0,3,3) at resolution 1; the point (3, 1) sits
on the upper-x boundary, maps to column 3 = width and is dropped. -/
theorem claim_C9_witness :
    (pointPass [] (0:ℚ) 3 1 3 3).1 5 5 = none ∧
    colOf 0 1 ⟨3, 1, 7, 2⟩ = 3 ∧ gridWidth 0 3 1 = 3 ∧
    popStep (0:ℚ) 3 1 (gridWidth 0 3 1) (gridHeight 0 3 1)
        ((fun _ _ => none, fun _ _ => none) : Grid × Grid) ⟨3, 1, 7, 2⟩
      = ((fun _ _ => none, fun _ _ => none) : Grid × Grid) := by
  refine ⟨(claim_C9_boundary_drop.1 [] 0 3 1 3 3 5 5 (Or.inl (by decide))).1,
    ?_, ?_, ?_⟩
  · exact (claim_C9_boundary_drop.2.1 0 3 1 3 ⟨3, 1, 7, 2⟩ (by decide)
      (by norm_num) rfl).1
  · exact (claim_C9_boundary_drop.2.1 0 3 1 3 ⟨3, 1, 7, 2⟩ (by decide)
      (by norm_num) rfl).2
  · exact claim_C9_boundary_drop.2.2.2 0 3 3 1 3 ⟨3, 1, 7, 2⟩ (gridHeight 0 3 1)
      ((fun _ _ => none, fun _ _ => none) : Grid × Grid) (by decide) (by norm_num) rfl

/-- C10: the terrain grid returned by process_lidar_points holds the
no-data sentinel at no in-range cell: every cell keeps its point-pass
value, or receives the minimum valid neighbor value, or the 0.0
fallback, even where the surface grid keeps the sentinel. -/
theorem claim_C10_dtm_total :
    ∀ (points : List LidarPoint) (xMin yMin xMax yMax : ℚ) (cl : Option (List ℕ))
      (res : ℚ) (r c : ℕ),
      r < gridHeight yMin yMax res → c < gridWidth xMin xMax res →
      (∃ q, (process_lidar_points points (xMin, yMin, xMax, yMax) cl res).dtm r c
        = some q) ∧
      (∀ v, preDtmOf points xMin yMin xMax yMax cl res r c = some v →
        (process_lidar_points points (xMin, yMin, xMax, yMax) cl res).dtm r c
          = some v) ∧
      (preDtmOf points xMin yMin xMax yMax cl res r c = none →
        (process_lidar_points points (xMin, yMin, xMax, yMax) cl res).dtm r c =
          some ((minNeighbor (preDtmOf points xMin yMin xMax yMax cl res)
            (gridHeight yMin yMax res) (gridWidth xMin xMax res) r c).getD 0)) := by
  intro points xMin yMin xMax yMax cl res r c hr hc
  have hdtm : (process_lidar_points points (xMin, yMin, xMax, yMax) cl res).dtm
      = gapFill (preDtmOf points xMin yMin xMax yMax cl res)
        (gridHeight yMin yMax res) (gridWidth xMin xMax res) := rfl
  rw [hdtm]
  unfold gapFill
  rw [if_pos ⟨hr, hc⟩]
  refine ⟨?_, fun v hv => by rw [hv], fun hn => by rw [hn]⟩
  cases hval : preDtmOf points xMin yMin xMax yMax cl res r c with
  | none =>
    exact ⟨(minNeighbor (preDtmOf points xMin yMin xMax yMax cl res)
      (gridHeight yMin yMax res) (gridWidth xMin xMax res) r c).getD 0, rfl⟩
  | some v =>
    exact ⟨v, rfl⟩

/-- Witness for C10: with no points every in-range terrain cell is
defined (holds some value). -/
theorem claim_C10_witness :
    ∃ q, (process_lidar_points [] ((0:ℚ), 0, 3, 3) none 1).dtm 1 1 = some q := by
  have h1 : (1:ℕ) < gridHeight 0 3 1 := by
    rw [gridHeight, show ((3:ℚ) - 0) / 1 = 3 by norm_num]
    decide
  have h2 : (1:ℕ) < gridWidth 0 3 1 := by
    rw [gridWidth, show ((3:ℚ) - 0) / 1 = 3 by norm_num]
    decide
  exact (claim_C10_dtm_total [] 0 0 3 3 none 1 1 1 h1 h2).1

theorem okFlatten_acc (rs : List (Except String (List LidarPoint))) :
    ∀ acc : List LidarPoint,
      rs.foldl (fun acc r => match r with
        | .ok ps => acc ++ ps
        | .error _ => acc) acc = acc ++ okFlatten rs := by
  induction rs with
  | nil =>
    intro acc
    simp [okFlatten]
  | cons r tl ih =>
    intro acc
    cases r with
    | ok ps =>
      rw [List.foldl_cons]
      show tl.foldl _ (acc ++ ps) = _
      rw [ih (acc ++ ps)]
      have hhd : okFlatten (Except.ok ps :: tl) = ps ++ okFlatten tl := by
        unfold okFlatten
        rw [List.foldl_cons]
        show tl.foldl _ ([] ++ ps) = _
        rw [List.nil_append, ih ps]
        rfl
      rw [hhd, List.append_assoc]
    | error e =>
      rw [List.foldl_cons]
      show tl.foldl _ acc = _
      have hhd : okFlatten (Except.error e :: tl) = okFlatten tl := rfl
      rw [hhd]
      exact ih acc

theorem okFlatten_cons_ok (ps : List LidarPoint)
    (tl : List (Except String (List LidarPoint))) :
    okFlatten (Except.ok ps :: tl) = ps ++ okFlatten tl := by
  unfold okFlatten
  rw [List.foldl_cons]
  show tl.foldl _ ([] ++ ps) = _
  rw [List.nil_append]
  exact okFlatten_acc tl ps

theorem collectExcept_all_ok (rs : List (Except String (List LidarPoint)))
    (h : ∀ r ∈ rs, ∃ ps, r = Except.ok ps) :
    ∃ vecs, collectExcept rs = Except.ok vecs ∧ vecs.flatten = okFlatten rs := by
  induction rs with
  | nil => exact ⟨[], rfl, rfl⟩
  | cons r tl ih =>
    rcases h r (List.mem_cons_self r tl) with ⟨ps, hps⟩
    subst hps
    rcases ih (fun r hr => h r (List.mem_cons_of_mem _ hr)) with ⟨vecs, hc, hf⟩
    refine ⟨ps :: vecs, ?_, ?_⟩
    · show (match collectExcept tl with
        | .error e => Except.error e
        | .ok tl2 => Except.ok (ps :: tl2)) = _
      rw [hc]
    · rw [List.flatten_cons, hf, okFlatten_cons_ok]

/-- C1 counterexample: in the parallel (rayon) path of
load_lidar_points_internal, one failing file among files that do yield
points aborts the whole run with that file's error, although the merged
point collection is non-empty; the sequential path keeps the points. -/
theorem claim_C1_counterexample :
    load_lidar_points_rayon [Except.error "boom", Except.ok [⟨1, 2, 3, 2⟩]]
      = Except.error "boom" ∧
    okFlatten [Except.error "boom", Except.ok [⟨1, 2, 3, 2⟩]] = [⟨1, 2, 3, 2⟩] ∧
    load_lidar_points_seq [Except.error "boom", Except.ok [⟨1, 2, 3, 2⟩]]
      = Except.ok [⟨1, 2, 3, 2⟩] := by
  refine ⟨?_, ?_, ?_⟩ <;> rfl

/-- C1 (amended): the sequential path of load_lidar_points_internal
skips a failing file (removing a failed outcome does not change the
result), fails exactly when the merged collection is empty, and
otherwise returns the merged points; the parallel (rayon) path instead
propagates a file error, and agrees with the sequential path only when
every file succeeds. -/
theorem claim_C1_amended_skip_policy :
    (∀ (rs1 rs2 : List (Except String (List LidarPoint))) (e : String),
      load_lidar_points_seq (rs1 ++ Except.error e :: rs2) =
        load_lidar_points_seq (rs1 ++ rs2)) ∧
    (∀ rs, load_lidar_points_seq rs = Except.error noPointsMsg ↔ okFlatten rs = []) ∧
    (∀ rs, okFlatten rs ≠ [] →
      load_lidar_points_seq rs = Except.ok (okFlatten rs)) ∧
    (∀ (e : String) rs,
      load_lidar_points_rayon (Except.error e :: rs) = Except.error e) ∧
    (∀ rs, (∀ r ∈ rs, ∃ ps, r = Except.ok ps) →
      load_lidar_points_rayon rs = load_lidar_points_seq rs) := by
  refine ⟨?_, ?_, ?_, ?_, ?_⟩
  · intro rs1 rs2 e
    have hflat : okFlatten (rs1 ++ Except.error e :: rs2) = okFlatten (rs1 ++ rs2) := by
      unfold okFlatten
      rw [List.foldl_append, List.foldl_append, List.foldl_cons]
    unfold load_lidar_points_seq
    rw [hflat]
  · intro rs
    unfold load_lidar_points_seq
    by_cases hemp : (okFlatten rs).isEmpty
    · rw [if_pos hemp]
      constructor
      · intro _
        exact List.isEmpty_iff.mp hemp
      · intro _
        rfl
    · rw [if_neg hemp]
      constructor
      · intro hcon
        cases hcon
      · intro hnil
        exact absurd (by rw [hnil]; rfl) hemp
  · intro rs hne
    unfold load_lidar_points_seq
    rw [if_neg (fun hemp => hne (List.isEmpty_iff.mp hemp))]
  · intro e rs
    rfl
  · intro rs hall
    rcases collectExcept_all_ok rs hall with ⟨vecs, hc, hf⟩
    unfold load_lidar_points_rayon load_lidar_points_seq
    rw [hc]
    show (if vecs.flatten.isEmpty then Except.error noPointsMsg
      else Except.ok vecs.flatten) = _
    rw [hf]

/-- Witness for C1 (amended): dropping the failed outcome leaves the
sequential result unchanged, and on an all-success list the two paths
agree. -/
theorem claim_C1_witness :
    load_lidar_points_seq [Except.error "boom", Except.ok [⟨1, 2, 3, 2⟩]] =
      load_lidar_points_seq [Except.ok [⟨1, 2, 3, 2⟩]] ∧
    load_lidar_points_rayon [Except.ok [⟨1, 2, 3, 2⟩]] =
      load_lidar_points_seq [Except.ok [⟨1, 2, 3, 2⟩]] :=
  ⟨claim_C1_amended_skip_policy.1 [] [Except.ok [⟨1, 2, 3, 2⟩]] "boom",
   claim_C1_amended_skip_policy.2.2.2.2 [Except.ok [⟨1, 2, 3, 2⟩]]
     (fun _ hr => ⟨[⟨1, 2, 3, 2⟩], List.mem_singleton.mp hr⟩)⟩

theorem copc_high_failure_flat_remote {β : Type} (flatDecode : β → List LidarPoint)
    (copcAttempt : β → CopcAttempt) (remote : β) (cache : Option β)
    (cacheValid : β → Bool) (fb : Option (ℚ × ℚ × ℚ × ℚ))
    (points : List LidarPoint) (processed success failed : ℕ)
    (hattempt : copcAttempt (copcBytes remote cache cacheValid) =
      CopcAttempt.entries points processed success failed)
    (hrate : (1:ℚ)/2 < (if 0 < processed then
      (failed : ℚ) / (processed : ℚ) else 0)) :
    load_single_copc_file flatDecode copcAttempt remote cache cacheValid fb =
      read_as_standard_laz flatDecode remote fb := by
  unfold load_single_copc_file
  rw [hattempt]
  show (if (1:ℚ)/2 < (if 0 < processed then
      (failed : ℚ) / (processed : ℚ) else 0) then
    read_as_standard_laz flatDecode remote fb else points) = _
  rw [if_pos hrate]

/-- C2 counterexample: with a validated cache entry whose content drifted
from the remote file, a >50% entry-failure rate makes
load_single_copc_file RE-DOWNLOAD and flat-decode the remote bytes, not
the byte buffer it had decoded hierarchically; the collected points are
discarded and the result differs from the flat decode of that buffer. -/
theorem claim_C2_counterexample :
    load_single_copc_file (fun b : Bool => if b then [] else [⟨1, 2, 3, 2⟩])
        (fun _ => CopcAttempt.entries [⟨5, 5, 5, 1⟩] 2 0 2) true (some false)
        (fun _ => true) none = [] ∧
    read_as_standard_laz (fun b : Bool => if b then [] else [⟨1, 2, 3, 2⟩])
        (copcBytes true (some false) (fun _ => true)) none = [⟨1, 2, 3, 2⟩] ∧
    ([] : List LidarPoint) ≠ [⟨1, 2, 3, 2⟩] := by
  refine ⟨?_, rfl, by simp⟩
  rw [copc_high_failure_flat_remote (fun b : Bool => if b then [] else [⟨1, 2, 3, 2⟩])
    (fun _ => CopcAttempt.entries [⟨5, 5, 5, 1⟩] 2 0 2) true (some false)
    (fun _ => true) none [⟨5, 5, 5, 1⟩] 2 0 2 rfl (by norm_num)]
  rfl

/-- C2 (amended): when the failed-entry fraction exceeds 50%, the decoder
abandons the hierarchical path, discards the collected points, and flat
decodes the freshly re-downloaded remote content; this equals the flat
decode of the same byte buffer exactly when the decoded buffer was the
remote content (in particular whenever no valid cache entry was used). -/
theorem claim_C2_amended_fallback : ∀ (β : Type) (flatDecode : β → List LidarPoint)
    (copcAttempt : β → CopcAttempt) (remote : β) (cache : Option β)
    (cacheValid : β → Bool) (fb : Option (ℚ × ℚ × ℚ × ℚ))
    (points : List LidarPoint) (processed success failed : ℕ),
    copcAttempt (copcBytes remote cache cacheValid) =
      CopcAttempt.entries points processed success failed →
    (1:ℚ)/2 < (if 0 < processed then (failed : ℚ) / (processed : ℚ) else 0) →
    load_single_copc_file flatDecode copcAttempt remote cache cacheValid fb =
      read_as_standard_laz flatDecode remote fb ∧
    (copcBytes remote cache cacheValid = remote →
      load_single_copc_file flatDecode copcAttempt remote cache cacheValid fb =
        read_as_standard_laz flatDecode (copcBytes remote cache cacheValid) fb) := by
  intro β flatDecode copcAttempt remote cache cacheValid fb points processed
    success failed hattempt hrate
  refine ⟨copc_high_failure_flat_remote flatDecode copcAttempt remote cache
    cacheValid fb points processed success failed hattempt hrate, fun hceq => ?_⟩
  rw [hceq]
  exact copc_high_failure_flat_remote flatDecode copcAttempt remote cache
    cacheValid fb points processed success failed hattempt hrate

/-- Witness for C2 (amended): with no cache entry (so the decoded buffer
is the remote content) and a failed-entry fraction of 1, the result is
the flat decode of the very buffer that was decoded. -/
theorem claim_C2_witness :
    load_single_copc_file (fun _ : Bool => ([] : List LidarPoint))
      (fun _ => CopcAttempt.entries [⟨5, 5, 5, 1⟩] 2 0 2) true none
      (fun _ => true) none = [] := by
  rw [(claim_C2_amended_fallback Bool (fun _ => ([] : List LidarPoint))
    (fun _ => CopcAttempt.entries [⟨5, 5, 5, 1⟩] 2 0 2) true none
    (fun _ => true) none [⟨5, 5, 5, 1⟩] 2 0 2 rfl (by norm_num)).2 rfl]
  rfl

/-- The little-endian u32 at bytes 94..98 of a file (offset_to_point_data
of its LAS header). -/
def leOffset (file : List ℕ) : ℕ :=
  file.getD 94 0 + 256 * (file.getD 95 0 + 256 * (file.getD 96 0 + 256 * file.getD 97 0))

theorem getD_take (l : List ℕ) (n i d : ℕ) (h : i < n) :
    (l.take n).getD i d = l.getD i d := by
  rw [List.getD_eq_getElem?_getD, List.getD_eq_getElem?_getD, List.getElem?_take,
    if_pos h]

theorem rangeGet_zero (file : List ℕ) : rangeGet file 0 4095 = file.take 4096 := by
  unfold rangeGet
  rw [List.drop_zero]

theorem parse_header_ok (file : List ℕ) (hlen : 111 ≤ file.length)
    (hsig : file.take 4 = lasSignature) :
    parse_las_header_offset (rangeGet file 0 4095) = Except.ok (leOffset file) := by
  rw [rangeGet_zero]
  unfold parse_las_header_offset
  have hlen2 : ¬((file.take 4096).length < 111) := by
    rw [List.length_take]
    exact not_lt.mpr (le_min (by norm_num) hlen)
  have hsig2 : ¬((file.take 4096).take 4 ≠ lasSignature) := by
    rw [List.take_take]
    exact not_not_intro (by rw [show min 4 4096 = 4 by norm_num]; exact hsig)
  rw [if_neg hlen2, if_neg hsig2]
  unfold leOffset
  rw [getD_take file 4096 94 0 (by norm_num), getD_take file 4096 95 0 (by norm_num),
    getD_take file 4096 96 0 (by norm_num), getD_take file 4096 97 0 (by norm_num)]

set_option maxRecDepth 1024 in
/-- C8: against a Range-honoring server for a fixed remote file whose
header parses with offset_to_point_data strictly below the content
length, download_laz_via_range returns exactly the full file content
(the first offset bytes concatenated with the bytes from the offset to
the end); and download_partial_laz turns a 200 answer into an error so
the caller falls back to a single full GET. -/
theorem claim_C8_range_download :
    (∀ file : List ℕ, 111 ≤ file.length → file.take 4 = lasSignature →
      leOffset file < file.length →
      download_laz_via_range file = Except.ok file) ∧
    (∀ body : List ℕ, download_partial_laz 200 body =
      Except.error "Server returned 200 (Range not supported), use full GET") := by
  constructor
  · intro file hlen hsig hoff
    unfold download_laz_via_range
    rw [parse_header_ok file hlen hsig]
    show (if file.length ≤ leOffset file then
        Except.error "Invalid LAZ: offset_to_point_data >= content_length"
      else Except.ok ((if leOffset file ≤ 4096 then
          (rangeGet file 0 4095).take (leOffset file)
        else rangeGet file 0 4095 ++ rangeGet file 4096 (leOffset file - 1)) ++
        rangeGet file (leOffset file) (file.length - 1))) = Except.ok file
    rw [if_neg (not_le.mpr hoff)]
    have hdrop : rangeGet file (leOffset file) (file.length - 1) =
        file.drop (leOffset file) := by
      unfold rangeGet
      rw [show file.length - 1 + 1 - leOffset file = file.length - leOffset file by omega]
      apply List.take_of_length_le
      rw [List.length_drop]
    by_cases hle : leOffset file ≤ 4096
    · rw [if_pos hle]
      rw [rangeGet_zero]
      rw [hdrop]
      rw [List.take_take]
      rw [min_eq_left hle]
      rw [List.take_append_drop]
    · rw [if_neg hle]
      rw [rangeGet_zero]
      rw [hdrop]
      have hr2 : rangeGet file 4096 (leOffset file - 1) =
          (file.drop 4096).take (leOffset file - 4096) := by
        unfold rangeGet
        rw [show leOffset file - 1 + 1 - 4096 = leOffset file - 4096 by omega]
      rw [hr2]
      rw [show file.take 4096 ++ (file.drop 4096).take (leOffset file - 4096)
          = file.take (leOffset file) by
        rw [← List.take_add]
        rw [show 4096 + (leOffset file - 4096) = leOffset file by omega]]
      rw [List.take_append_drop]
  · intro body
    unfold download_partial_laz
    rw [if_pos rfl]

/-- A minimal 111-byte LAS file: the signature followed by zero bytes, so
offset_to_point_data is 0. -/
def lasFileEx : List ℕ := lasSignature ++ List.replicate 107 0

/-- Witness for C8 on the minimal LAS file and a 200-status Range answer. -/
theorem claim_C8_witness :
    download_laz_via_range lasFileEx = Except.ok lasFileEx ∧
    download_partial_laz 200 [1, 2] =
      Except.error "Server returned 200 (Range not supported), use full GET" :=
  ⟨claim_C8_range_download.1 lasFileEx (by decide) (by decide) (by decide),
   claim_C8_range_download.2 [1, 2]⟩

end Rsmdu
